import Mathlib

/-!
Shallow embedding of the MetPy Synoptic Data client
(src/metpy/remote/synoptic_data.py) and verification of its
natural-language specification.

Modelling conventions:
* Decoded JSON documents (the output of json.loads) are modelled by the
  inductive type JVal; JSON numbers are carried as exact rationals, since
  no verified property depends on binary floating-point rounding.
* Python dictionaries are modelled as insertion-ordered association lists
  (updates replace the value of an existing key in place, new keys are
  appended), matching CPython dict semantics.
* Python exceptions (KeyError, TypeError, ValueError, IndexError,
  UnboundLocalError) and sys.exit are modelled with the Except monad over
  the error type PyErr.
* pandas DataFrames are modelled as a column-name list plus rows; the
  NaN fill value used by pandas for missing cells is modelled as JSON null.
* pandas timestamp parsing (pd.to_datetime with a caller-chosen format
  string) is abstracted: parsed timestamps are represented directly as
  natural numbers carried in the response as JSON numbers, since every
  claim depends only on the order of parsed timestamps and on which
  fields are parsed, never on the textual date format.  The format
  argument is threaded through unchanged, as in the source.
* The single HTTP GET of request_data is the only transport interaction;
  it is modelled by passing the decoded JSON response as an explicit
  argument, so constructor-time validation provably happens with no
  transport input in scope.
-/

namespace Synoptic

/-- Decoded JSON value, as produced by json.loads. -/
inductive JVal where
  | null : JVal
  | bool (b : Bool) : JVal
  | num (q : Rat) : JVal
  | str (s : String) : JVal
  | arr (elems : List JVal) : JVal
  | obj (fields : List (String × JVal)) : JVal

/-- Python runtime errors raised (and sometimes caught) by the source,
plus sys.exit carrying the object passed to it. -/
inductive PyErr where
  | keyError (k : String) : PyErr
  | typeError : PyErr
  | valueError : PyErr
  | indexError : PyErr
  | nameError : PyErr
  | systemExit (msg : JVal) : PyErr

/-- Python dictionary with string keys, as an insertion-ordered
association list. -/
abbrev PyDict := List (String × JVal)

/-- Keys of a dictionary, in insertion order. -/
def dictKeys (d : PyDict) : List String := d.map Prod.fst

/-- Dictionary lookup (first binding wins; well-formed dictionaries have
unique keys). -/
def dictGet? (d : PyDict) (k : String) : Option JVal :=
  match d with
  | [] => none
  | (k', v) :: rest => if k' = k then some v else dictGet? rest k

/-- Python d[k] = v: replace the value in place when the key exists,
append the binding otherwise. -/
def dictSet (d : PyDict) (k : String) (v : JVal) : PyDict :=
  match d with
  | [] => [(k, v)]
  | (k', v') :: rest => if k' = k then (k', v) :: rest else (k', v') :: dictSet rest k v

/-- Python d.update(d2): left fold of single-key updates. -/
def dictUpdate (d d2 : PyDict) : PyDict :=
  d2.foldl (fun acc kv => dictSet acc kv.1 kv.2) d

/-- Python d[k] with KeyError on absence. -/
def dictItem (d : PyDict) (k : String) : Except PyErr JVal :=
  match dictGet? d k with
  | some v => .ok v
  | none => .error (.keyError k)

/-- Python subscription v[k] on a JSON value: succeeds only on an object
(a decoded JSON dict); anything else raises TypeError. -/
def jGet (v : JVal) (k : String) : Except PyErr JVal :=
  match v with
  | .obj fields => dictItem fields k
  | _ => .error .typeError

/-- Expect a decoded JSON object and return its fields (models attribute
or item access that requires a dict, raising TypeError otherwise). -/
def jObj (v : JVal) : Except PyErr PyDict :=
  match v with
  | .obj fields => .ok fields
  | _ => .error .typeError

/-- Expect a decoded JSON array and return its elements (models
iteration or len() over the STATION list). -/
def jArr (v : JVal) : Except PyErr (List JVal) :=
  match v with
  | .arr elems => .ok elems
  | _ => .error .typeError

/-- Static rename table mapping Synoptic unit spellings to
pint-compatible spellings (units_map in the source). -/
def units_map : List (String × String) :=
  [("Celsius", "degC"),
   ("Fahrenheit", "degF"),
   ("Pascals", "pascal"),
   ("Millimeters", "millimeter"),
   ("Degrees", "degree"),
   ("Statute_miles", "us_statute_mile"),
   ("gm", "gram"),
   ("Inches", "inch"),
   ("Miles/hour", "mile/hour"),
   ("ug/m3", "ug/m**3"),
   ("ft3/s", "ft**3/s")]

/-- Association-list lookup for the static string tables. -/
def tableGet? (t : List (String × String)) (k : String) : Option String :=
  match t with
  | [] => none
  | (k', v) :: rest => if k' = k then some v else tableGet? rest k

/-- Python str() rendering of the query-string values the client
produces.  Integral numbers render like Python ints; the remaining
branches (non-integral rationals, booleans, None, containers) are given
simple deterministic renderings, noted as approximations of Python repr
formatting that no verified property depends on. -/
def pyStr (v : JVal) : String :=
  match v with
  | .str s => s
  | .num q => if q.den = 1 then toString q.num else toString q.num ++ "/" ++ toString q.den
  | .bool b => if b then "True" else "False"
  | .null => "None"
  | .arr _ => "<list>"
  | .obj _ => "<dict>"

/-- UTF-8 encoding of a Unicode code point as a list of byte values. -/
def utf8Bytes (n : Nat) : List Nat :=
  if n < 0x80 then [n]
  else if n < 0x800 then [0xC0 + n / 0x40, 0x80 + n % 0x40]
  else if n < 0x10000 then [0xE0 + n / 0x1000, 0x80 + (n / 0x40) % 0x40, 0x80 + n % 0x40]
  else [0xF0 + n / 0x40000, 0x80 + (n / 0x1000) % 0x40, 0x80 + (n / 0x40) % 0x40,
        0x80 + n % 0x40]

/-- Uppercase hexadecimal digit. -/
def hexDigit (n : Nat) : Char :=
  if n < 10 then Char.ofNat (48 + n) else Char.ofNat (55 + n)

/-- Percent-encoding of one byte under urllib.parse.quote_plus: the
always-safe bytes (ASCII alphanumerics and underscore, period, hyphen,
tilde) pass through, a space becomes a plus sign, and every other byte
becomes a percent escape with uppercase hex digits. -/
def quoteByte (b : Nat) : String :=
  if b = 32 then "+"
  else if (65 ≤ b ∧ b ≤ 90) ∨ (97 ≤ b ∧ b ≤ 122) ∨ (48 ≤ b ∧ b ≤ 57)
          ∨ b = 95 ∨ b = 46 ∨ b = 45 ∨ b = 126 then
    String.singleton (Char.ofNat b)
  else
    "%" ++ String.singleton (hexDigit (b / 16)) ++ String.singleton (hexDigit (b % 16))

/-- urllib.parse.quote_plus over the UTF-8 bytes of a string. -/
def quotePlus (s : String) : String :=
  ((s.data.flatMap (fun c => utf8Bytes c.toNat)).map quoteByte).foldl (· ++ ·) ""

/-- urllib.parse.urlencode: ampersand-joined key=value pairs, each side
quote_plus-encoded after Python str() conversion. -/
def urlencode (d : PyDict) : String :=
  String.intercalate "&" (d.map (fun kv => quotePlus kv.1 ++ "=" ++ quotePlus (pyStr kv.2)))

/-- Comma-joined serialization of a list value, as the comma join of
map(str, list) in the source. -/
def commaJoin (v : JVal) : JVal :=
  match v with
  | .arr elems => .str (String.intercalate "," (elems.map pyStr))
  | v => v

/-- build_query_string from the source: convert every list value of the
query dictionary to a comma-separated string, then urlencode the whole
dictionary.  (The source performs the list conversion by mutating its
argument in place; both call sites pass a dictionary that is local to
the caller, so the pure rendering is observationally equivalent.) -/
def build_query_string (qsp_dic : PyDict) : String :=
  urlencode (qsp_dic.map (fun kv => (kv.1, commaJoin kv.2)))

/-- Value of a decimal digit character, if it is one. -/
def digitVal? (c : Char) : Option Nat :=
  if 48 ≤ c.toNat ∧ c.toNat ≤ 57 then some (c.toNat - 48) else none

/-- Accumulate a digit run; returns the value and the remaining input,
or none when the input does not start with a digit. -/
def takeDigits : List Char → Option (Nat × Nat × List Char)
  | [] => none
  | c :: rest =>
    match digitVal? c with
    | none => none
    | some d =>
      match takeDigits rest with
      | none => some (d, 1, rest)
      | some (v, len, rest') => some (d * 10 ^ len + v, len + 1, rest')

/-- Optional sign prefix: returns the sign as 1 or -1 and the rest. -/
def takeSign : List Char → Int × List Char
  | '-' :: rest => (-1, rest)
  | '+' :: rest => (1, rest)
  | cs => (1, cs)

/-- Parse the fractional part after the integer digits: an optional dot
followed by an optional digit run, yielding numerator and denominator
scale of the fraction read so far.  Fails when nothing numeric at all has
been read (handled by the caller). -/
def takeFrac : List Char → Option (Nat × Nat × List Char)
  | '.' :: rest =>
    match takeDigits rest with
    | none => some (0, 0, rest)
    | some (v, len, rest') => some (v, len, rest')
  | cs => some (0, 0, cs)

/-- Parse an optional exponent suffix, as a power-of-ten exponent. -/
def takeExp : List Char → Option (Int × List Char)
  | 'e' :: rest =>
    let (sgn, rest') := takeSign rest
    match takeDigits rest' with
    | none => none
    | some (v, _, rest'') => some (sgn * v, rest'')
  | 'E' :: rest =>
    let (sgn, rest') := takeSign rest
    match takeDigits rest' with
    | none => none
    | some (v, _, rest'') => some (sgn * v, rest'')
  | cs => some (0, cs)

/-- Parse a Python float literal from a character list (after stripping):
sign, digits with optional fraction (at least one digit overall), and
optional exponent.  The special spellings inf and nan and underscore
digit separators are not modelled; no verified property involves them. -/
def parseFloatChars (cs : List Char) : Option Rat :=
  let (sgn, cs₁) := takeSign cs
  match takeDigits cs₁ with
  | some (ip, _, cs₂) =>
    match takeFrac cs₂ with
    | none => none
    | some (fv, flen, cs₃) =>
      match takeExp cs₃ with
      | none => none
      | some (e, cs₄) =>
        if cs₄ = [] then
          some ((sgn * (ip * 10 ^ flen + fv) : Int) / (10 ^ flen : Int) * (10 : Rat) ^ e)
        else none
  | none =>
    match cs₁ with
    | '.' :: rest =>
      match takeDigits rest with
      | none => none
      | some (fv, flen, cs₂) =>
        match takeExp cs₂ with
        | none => none
        | some (e, cs₃) =>
          if cs₃ = [] then
            some ((sgn * fv : Int) / (10 ^ flen : Int) * (10 : Rat) ^ e)
          else none
    | _ => none

/-- Whitespace accepted around a Python float literal. -/
def isSpace (c : Char) : Bool := c = ' ' ∨ c = '\t' ∨ c = '\n' ∨ c = '\r'

/-- Python float(s) on a string: strip surrounding whitespace, then parse
a float literal; ValueError when the parse fails. -/
def parseFloat? (s : String) : Option Rat :=
  parseFloatChars ((s.data.dropWhile isSpace).reverse.dropWhile isSpace |>.reverse)

/-- Python float(v) on a decoded JSON value: numbers and booleans
convert, strings are parsed (ValueError on failure), and every other
type (None, lists, dicts) raises TypeError. -/
def pyFloat (v : JVal) : Except PyErr Rat :=
  match v with
  | .num q => .ok q
  | .bool b => .ok (if b then 1 else 0)
  | .str s =>
    match parseFloat? s with
    | some q => .ok q
    | none => .error .valueError
  | _ => .error .typeError

/-- Metadata field extraction from a station record: float(rec[k]) with
only TypeError caught and replaced by None; a missing key (KeyError) and
an unparsable string (ValueError) propagate and abort the request. -/
def metaFloat (rec : JVal) (k : String) : Except PyErr (Option Rat) := do
  let v ← jGet rec k
  match pyFloat v with
  | .ok q => .ok (some q)
  | .error .typeError => .ok none
  | .error e => .error e

/-- Prefix test on character lists. -/
def isPrefixChars : List Char → List Char → Bool
  | [], _ => true
  | _ :: _, [] => false
  | a :: as, b :: bs => a = b && isPrefixChars as bs

/-- Contiguous-substring test on character lists; models the Python idiom
s.find(pat) != -1 (and pat in s), which is true for the empty pattern. -/
def isSubstrChars (pat : List Char) : List Char → Bool
  | [] => pat.isEmpty
  | c :: rest => isPrefixChars pat (c :: rest) || isSubstrChars pat rest

/-- Python membership test of a string needle in a decoded JSON value:
substring containment for strings, element equality for lists (only
string elements can equal a string), key containment for dicts, and
TypeError otherwise. -/
def pyInStr (needle : String) (v : JVal) : Except PyErr Bool :=
  match v with
  | .str s => .ok (isSubstrChars needle.data s.data)
  | .arr elems =>
    .ok (elems.any (fun e => match e with | .str s => s = needle | _ => false))
  | .obj fields => .ok ((dictKeys fields).any (fun k => k = needle))
  | _ => .error .typeError

/-- Python equality test of a decoded JSON value against the int 1
(RESPONSE_CODE check): numeric one and True compare equal to 1. -/
def jEqOne (v : JVal) : Bool :=
  match v with
  | .num q => q = 1
  | .bool b => b
  | _ => false

/-- Parsed timestamp (see the header note on the pd.to_datetime
abstraction): response timestamps are JSON numbers standing for already
parsed instants, ordered as naturals. -/
def toTime (v : JVal) : Except PyErr Nat :=
  match v with
  | .num q => if q.den = 1 ∧ 0 ≤ q.num then .ok q.num.toNat else .error .valueError
  | _ => .error .valueError

/-- Shared timestamp axis of a TimeSeries observation block: an array of
parsed instants. -/
def toTimeList (v : JVal) : Except PyErr (List Nat) :=
  match v with
  | .arr elems => elems.mapM toTime
  | _ => .error .valueError

/-- Python del d[k] (on well-formed dictionaries keys are unique, so
filtering is equivalent); the source deletes only keys it has already
read, so the KeyError branch of del never fires. -/
def dictErase (d : PyDict) (k : String) : PyDict :=
  d.filter (fun kv => kv.1 ≠ k)

/-- Multi-index entry of the station-observation table: station
identifier and parsed timestamp, the (stid, dattim) index of the source. -/
structure Row where
  stid : String
  dattim : Nat
deriving Repr, DecidableEq

/-- pandas DataFrame over the (stid, dattim) multi-index: named columns
and index-tagged rows whose cells align with the column list. -/
structure DF where
  cols : List String
  rows : List (Row × List JVal)

/-- Empty DataFrame, the value of pd.DataFrame(None). -/
def DF.empty : DF := ⟨[], []⟩

/-- One column of pd.DataFrame(dict, index=idx): an array value must
match the index length (pandas raises ValueError otherwise) and a scalar
value is broadcast along the index. -/
def colArray (n : Nat) (v : JVal) : Except PyErr (List JVal) :=
  match v with
  | .arr xs => if xs.length = n then .ok xs else .error .valueError
  | v => .ok (List.replicate n v)

/-- Transpose column arrays into index-tagged rows. -/
def buildRows : List Row → List (String × List JVal) → List (Row × List JVal)
  | [], _ => []
  | i :: is, cols =>
    (i, cols.map (fun c => c.2.headD .null)) :: buildRows is (cols.map (fun c => (c.1, c.2.tail)))

/-- pandas pd.DataFrame(data, index=idx) for a dictionary of columns. -/
def mkDataFrame (d : PyDict) (idx : List Row) : Except PyErr DF := do
  let colVals ← d.mapM (fun kv => do
    let xs ← colArray idx.length kv.2
    pure (kv.1, xs))
  pure ⟨d.map Prod.fst, buildRows idx colVals⟩

/-- Cell realignment against a target column list, filling missing
columns with null (pandas fills NaN). -/
def alignRow (fromCols : List String) (cells : List JVal) (toCols : List String) : List JVal :=
  toCols.map (fun c => (dictGet? (fromCols.zip cells) c).getD .null)

/-- pandas pd.concat([a, b], axis=0): rows of a then rows of b, over the
union of the column lists in order of first appearance. -/
def DF.concat (a b : DF) : DF :=
  let cols := a.cols ++ b.cols.filter (fun c => ¬ a.cols.contains c)
  ⟨cols,
   a.rows.map (fun r => (r.1, alignRow a.cols r.2 cols))
     ++ b.rows.map (fun r => (r.1, alignRow b.cols r.2 cols))⟩

/-- Lexicographic order on the (stid, dattim) multi-index, the order
used by DataFrame.sort_index. -/
def rowLe (a b : Row) : Prop :=
  a.stid < b.stid ∨ (a.stid = b.stid ∧ a.dattim ≤ b.dattim)

instance rowLe.decidable : DecidableRel rowLe := fun a b => by
  unfold rowLe; infer_instance

/-- Row order lifted to index-tagged rows (cells do not participate). -/
def keyLe (a b : Row × List JVal) : Prop := rowLe a.1 b.1

instance keyLe.decidable : DecidableRel keyLe := fun a b => by
  unfold keyLe; infer_instance

instance keyLe.isTotal : IsTotal (Row × List JVal) keyLe := by
  constructor
  intro a b
  rcases lt_trichotomy a.1.stid b.1.stid with h | h | h
  · exact Or.inl (Or.inl h)
  · rcases Nat.le_total a.1.dattim b.1.dattim with h' | h'
    · exact Or.inl (Or.inr ⟨h, h'⟩)
    · exact Or.inr (Or.inr ⟨h.symm, h'⟩)
  · exact Or.inr (Or.inl h)

instance keyLe.isTrans : IsTrans (Row × List JVal) keyLe := by
  constructor
  intro a b c hab hbc
  rcases hab with h₁ | ⟨h₁, h₁'⟩
  · rcases hbc with h₂ | ⟨h₂, _⟩
    · exact Or.inl (h₁.trans h₂)
    · exact Or.inl (h₂ ▸ h₁)
  · rcases hbc with h₂ | ⟨h₂, h₂'⟩
    · exact Or.inl (h₁ ▸ h₂)
    · exact Or.inr ⟨h₁.trans h₂, h₁'.trans h₂'⟩

/-- DataFrame.sort_index: rows reordered into ascending multi-index
order (the sort algorithm pandas uses is irrelevant to every verified
property, which depend only on membership and ordering). -/
def DF.sortIndex (d : DF) : DF :=
  ⟨d.cols, List.insertionSort keyLe d.rows⟩

/-- Station metadata row: identifier and the three optional numeric
fields. -/
structure MetaRow where
  stid : String
  lon : Option Rat
  lat : Option Rat
  elev : Option Rat
deriving Repr, DecidableEq

/-- Station identifier extraction.  The identifier becomes a multi-index
label that sort_index later compares, so the API-guaranteed string shape
is required here (a non-string would make the comparison raise). -/
def getStid (rec : JVal) : Except PyErr String := do
  let v ← jGet rec "STID"
  match v with
  | .str s => pure s
  | _ => .error .typeError

/-- Per-station quality-control block of the source loop: when flags
were requested, build a DataFrame over the same multi-index from the
QC mapping when the record has one and from the empty mapping otherwise;
when flags were not requested the per-station QC value is None. -/
def mkQC (qc_flag : Bool) (rec : JVal) (mi : List Row) : Except PyErr (Option DF) :=
  if qc_flag then do
    let qc_out ←
      match rec with
      | .obj fields =>
        match dictGet? fields "QC" with
        | some v => jObj v
        | none => pure ([] : PyDict)
      | _ => .error .typeError
    let d ← mkDataFrame qc_out mi
    pure (some d)
  else
    pure none

/-- One iteration of the return_stn_df station loop: metadata fields,
observation block in its per-service shape, and the optional QC block.
For TimeSeries the block is a mapping of column arrays sharing the
date_time axis; for Latest and NearestTime each variable carries its own
value/date_time pair, the first variable's timestamp labels the single
row, and the block is flattened to the scalar values. -/
def perStation (service : String) (qc_flag : Bool) (rec : JVal) :
    Except PyErr (MetaRow × DF × Option DF) := do
  let stid ← getStid rec
  let lon ← metaFloat rec "LONGITUDE"
  let lat ← metaFloat rec "LATITUDE"
  let elev ← metaFloat rec "ELEVATION"
  let obs ← jObj (← jGet rec "OBSERVATIONS")
  if service = "TimeSeries" then
    let dtv ← dictItem obs "date_time"
    let times ← toTimeList dtv
    let data_out := dictErase obs "date_time"
    let mi := times.map (fun t => Row.mk stid t)
    let df ← mkDataFrame data_out mi
    let qc ← mkQC qc_flag rec mi
    pure (⟨stid, lon, lat, elev⟩, df, qc)
  else
    let firstv ←
      match obs with
      | [] => .error .indexError
      | kv :: _ => pure kv.2
    let t ← toTime (← jGet firstv "date_time")
    let flat ← obs.mapM (fun kv => do
      let x ← jGet kv.2 "value"
      pure (kv.1, x))
    let mi := [Row.mk stid t]
    let df ← mkDataFrame flat mi
    let qc ← mkQC qc_flag rec mi
    pure (⟨stid, lon, lat, elev⟩, df, qc)

/-- Remaining iterations of the station loop, concatenating onto the
accumulated metadata list, observation table, and QC table (pandas
concat silently drops a None QC entry). -/
def stnLoop (service : String) (qc_flag : Bool)
    (acc : List MetaRow × DF × DF) :
    List JVal → Except PyErr (List MetaRow × DF × DF)
  | [] => pure acc
  | rec :: rest => do
    let (m, df, qc) ← perStation service qc_flag rec
    stnLoop service qc_flag
      (acc.1 ++ [m], acc.2.1.concat df,
        match qc with
        | some q => acc.2.2.concat q
        | none => acc.2.2)
      rest

/-- return_stn_df from the source: per-station loop, then the final
sort_index on the observation table.  An empty station list leaves the
loop variables unbound and the sort raises UnboundLocalError, modelled
as nameError.  The date-format argument is threaded through untouched
under the timestamp abstraction. -/
def return_stn_df (data : List JVal) (_date_format : JVal) (qc_flag : Bool)
    (service : String) : Except PyErr (DF × List MetaRow × DF) := do
  match data with
  | [] => .error .nameError
  | first :: rest =>
    let (m, df, qc) ← perStation service qc_flag first
    let qc0 :=
      match qc with
      | some q => q
      | none => DF.empty
    let (metas, data_df, qc_df) ← stnLoop service qc_flag ([m], df, qc0) rest
    pure (data_df.sortIndex, metas, qc_df)

/-- One sensor-variable child entry of variable_details: an optional
position string converts with float() unless empty, and an optional
derived_from entry is copied through. -/
def svChild (acc : PyDict × PyDict) (child : String × JVal) :
    Except PyErr (PyDict × PyDict) := do
  let fields ← jObj child.2
  let pos ←
    match dictGet? fields "position" with
    | some (.str s) =>
      if s = "" then pure acc.1
      else do
        let q ← pyFloat (.str s)
        pure (dictSet acc.1 child.1 (.num q))
    | some pv => do
      let q ← pyFloat pv
      pure (dictSet acc.1 child.1 (.num q))
    | none => pure acc.1
  let der :=
    match dictGet? fields "derived_from" with
    | some dv => dictSet acc.2 child.1 dv
    | none => acc.2
  pure (pos, der)

/-- variable_details from the source: for every station, walk the
SENSOR_VARIABLES groups and children, collecting per-variable position
and derived_from mappings keyed by station identifier. -/
def variable_details (data : List JVal) : Except PyErr (PyDict × PyDict) :=
  data.foldlM
    (fun acc rec => do
      let stid ← getStid rec
      let sensor ← jObj (← jGet rec "SENSOR_VARIABLES")
      let (pos, der) ← sensor.foldlM
        (fun inner group => do
          let children ← jObj group.2
          children.foldlM svChild inner)
        (([] : PyDict), ([] : PyDict))
      pure (dictSet acc.1 stid (.obj pos), dictSet acc.2 stid (.obj der)))
    (([] : PyDict), ([] : PyDict))

/-- Plain pandas DataFrame with a default integer index, used on the
Precip path before set_index: named columns and positional rows whose
cells align with the column list. -/
structure PTable where
  cols : List String
  rows : List (List JVal)

/-- Union of column lists in order of first appearance, the column
result of building a frame from records and of concat. -/
def colUnion (a b : List String) : List String :=
  a ++ b.filter (fun c => ¬ a.contains c)

/-- pandas pd.DataFrame(list of records): columns are the union of the
record keys in order of first appearance; missing cells fill with NaN
(modelled as null).  Every element must be a record; the source never
feeds scalars here (pandas would then create integer column labels),
so a non-record element is modelled as TypeError. -/
def fromRecords (recs : List JVal) : Except PyErr PTable := do
  let dicts ← recs.mapM jObj
  let cols := dicts.foldl (fun acc d => colUnion acc (dictKeys d)) []
  pure ⟨cols, dicts.map (fun d => cols.map (fun c => (dictGet? d c).getD .null))⟩

/-- DataFrame.rename(columns=m): relabel matching column names in
place. -/
def PTable.rename (t : PTable) (m : List (String × String)) : PTable :=
  ⟨t.cols.map (fun c => (tableGet? m c).getD c), t.rows⟩

/-- Column assignment df[c] = scalar: overwrite an existing column in
place, else append a new constant column. -/
def PTable.setCol (t : PTable) (c : String) (v : JVal) : PTable :=
  if t.cols.contains c then
    ⟨t.cols, t.rows.map (fun r => (t.cols.zip r).map (fun kv => if kv.1 = c then v else kv.2))⟩
  else
    ⟨t.cols ++ [c], t.rows.map (fun r => r ++ [v])⟩

/-- Cell realignment for plain tables, as alignRow. -/
def alignCells (fromCols : List String) (cells : List JVal) (toCols : List String) : List JVal :=
  toCols.map (fun c => (dictGet? (fromCols.zip cells) c).getD .null)

/-- pandas pd.concat([a, b]) on plain tables. -/
def PTable.concat (a b : PTable) : PTable :=
  let cols := colUnion a.cols b.cols
  ⟨cols,
   a.rows.map (fun r => alignCells a.cols r cols)
     ++ b.rows.map (fun r => alignCells b.cols r cols)⟩

/-- DataFrame.drop(c, axis=1): remove the labelled column and its
cells (the source checks presence before dropping). -/
def PTable.dropCol (t : PTable) (c : String) : PTable :=
  ⟨t.cols.filter (fun c' => c' ≠ c),
   t.rows.map (fun r => ((t.cols.zip r).filter (fun kv => kv.1 ≠ c)).map Prod.snd)⟩

/-- Column read df[c], raising KeyError on an absent label. -/
def PTable.requireCol (t : PTable) (c : String) : Except PyErr Unit :=
  if t.cols.contains c then pure () else .error (.keyError c)

/-- df[c] = pd.to_datetime(df[c], format=fmt): the labelled column must
exist; each cell must be a parsable timestamp (kept in place under the
timestamp abstraction) or NaN, which to_datetime maps to NaT. -/
def PTable.convertTimeCol (t : PTable) (c : String) : Except PyErr PTable := do
  let _ ← t.requireCol c
  let rows ← t.rows.mapM (fun r =>
    (t.cols.zip r).mapM (fun kv =>
      if kv.1 = c then
        match kv.2 with
        | .null => pure JVal.null
        | v => do
          let n ← toTime v
          pure (JVal.num n)
      else
        pure kv.2))
  pure ⟨t.cols, rows⟩

/-- Precipitation table after set_index: the named index levels with
their per-row label tuples, and the residual data columns. -/
structure PrecipDF where
  indexCols : List String
  idx : List (List JVal)
  table : PTable

/-- DataFrame.set_index(names): move the named columns out of the data
columns into the index (KeyError when one is absent). -/
def PTable.setIndex (t : PTable) (names : List String) : Except PyErr PrecipDF := do
  let _ ← names.mapM t.requireCol
  pure ⟨names,
        t.rows.map (fun r => names.map (fun c => (dictGet? (t.cols.zip r) c).getD .null)),
        ⟨t.cols.filter (fun c => ¬ names.contains c),
         t.rows.map (fun r =>
           ((t.cols.zip r).filter (fun kv => ¬ names.contains kv.1)).map Prod.snd)⟩⟩

/-- Per-station block of return_precip_df: with pmode the records live
under OBSERVATIONS.precipitation and only the total field is renamed;
without pmode the block is OBSERVATIONS itself and the numbered raw
field names are renamed.  A single record (a dict rather than a list)
is wrapped into a one-row frame, and the station identifier column is
assigned last. -/
def precipStation (pmode : Bool) (rec : JVal) : Except PyErr (MetaRow × PTable) := do
  let stid ← getStid rec
  let lon ← metaFloat rec "LONGITUDE"
  let lat ← metaFloat rec "LATITUDE"
  let elev ← metaFloat rec "ELEVATION"
  let t ←
    if pmode then do
      let data_out ← jGet (← jGet rec "OBSERVATIONS") "precipitation"
      let base ←
        match data_out with
        | .arr recs => fromRecords recs
        | v => fromRecords [v]
      pure (base.rename [("total", "precipitation")])
    else do
      let data_out ← jGet rec "OBSERVATIONS"
      let base ←
        match data_out with
        | .arr recs => fromRecords recs
        | v => fromRecords [v]
      pure (base.rename
        [("ob_start_time_1", "first_report"),
         ("ob_end_time_1", "last_report"),
         ("total_precip_value_1", "precipitation")])
  pure (MetaRow.mk stid lon lat elev, t.setCol "stid" (.str stid))

/-- return_precip_df from the source: per-station frames concatenated,
the redundant report_type column dropped when present, both report-time
columns parsed, and the index chosen by whichever of accum_hours or
interval is present (station and report times only when neither is).
Station metadata is extracted exactly as on the non-Precip path.  An
empty station list leaves the loop variable unbound, raising at the
report_type membership test. -/
def return_precip_df (data : List JVal) (_date_format : JVal) (pmode : Bool) :
    Except PyErr (PrecipDF × List MetaRow) := do
  match data with
  | [] => .error .nameError
  | first :: rest => do
    let (m0, t0) ← precipStation pmode first
    let (metas, data_df) ← rest.foldlM (fun acc rec => do
      let (m, t) ← precipStation pmode rec
      pure (acc.1 ++ [m], acc.2.concat t)) ([m0], t0)
    let data_df :=
      if data_df.cols.contains "report_type" then data_df.dropCol "report_type" else data_df
    let data_df ← data_df.convertTimeCol "first_report"
    let data_df ← data_df.convertTimeCol "last_report"
    let out ←
      if data_df.cols.contains "accum_hours" then
        data_df.setIndex ["stid", "accum_hours", "first_report", "last_report"]
      else if data_df.cols.contains "interval" then
        data_df.setIndex ["stid", "interval", "first_report", "last_report"]
      else
        data_df.setIndex ["stid", "first_report", "last_report"]
    pure (out, metas)

/-- Constructor-time validation failures of SynopticData.__init__; all
surface as sys.exit with a message.  The key-carrying constructors model
the messages that name the offending keys. -/
inductive InitErr where
  | invalidService : InitErr
  | emptyStation : InitErr
  | invalidStation (keys : List String) : InitErr
  | invalidTime (keys : List String) : InitErr
deriving Repr, DecidableEq

/-- Request descriptor: the attributes SynopticData.__init__ stores. -/
structure SynopticData where
  token : String
  service : String
  url0 : String
  station : PyDict
  time : PyDict
  opt_params : PyDict

/-- Per-service time-selector allow-list; none marks an invalid service
name. -/
def valid_time_keys (service : String) : Option (List String) :=
  if service = "TimeSeries" then some ["start", "end", "recent"]
  else if service = "Latest" then some ["within", "minmax", "minmaxtype"]
  else if service = "NearestTime" then some ["within", "attime"]
  else if service = "Precip" then some ["start", "end", "recent"]
  else none

/-- Fixed service endpoint chosen by the constructor. -/
def serviceUrl (service : String) : String :=
  if service = "TimeSeries" then "https://api.synopticdata.com/v2/stations/timeseries?"
  else if service = "Latest" then "https://api.synopticdata.com/v2/stations/latest?"
  else if service = "NearestTime" then "https://api.synopticdata.com/v2/stations/nearesttime?"
  else "https://api.synopticdata.com/v2/stations/precip?"

/-- Fixed station-selector allow-list of the constructor. -/
def stn_keys : List String :=
  ["stid", "state", "country", "nwszone", "nwsfirezone", "cwa",
   "gacc", "subgacc", "county", "vars", "varsoperator", "network",
   "radius", "bbox", "status", "complete", "fields", "networkimportance",
   "spacing"]

/-- Station-selector keys outside the allow-list, as the set difference
the constructor reports (dictionary keys are unique, and dedup models
the set construction on arbitrary association lists). -/
def invalidStationKeys (station : PyDict) : List String :=
  ((dictKeys station).filter (fun k => ¬ stn_keys.contains k)).dedup

/-- Time-selector keys outside the per-service allow-list. -/
def invalidTimeKeys (time : PyDict) (valid : List String) : List String :=
  ((dictKeys time).filter (fun k => ¬ valid.contains k)).dedup

/-- SynopticData.__init__: validate the service name, then the station
selector keys (requiring at least one), then the time selector keys
against the per-service allow-list, and store the request attributes.
The constructor performs no transport interaction: the decoded response
enters the model only as an argument of request_data. -/
def SynopticData.init (token service : String) (station time opt_params : PyDict) :
    Except InitErr SynopticData :=
  match valid_time_keys service with
  | none => .error .invalidService
  | some valid =>
    if station.isEmpty then .error .emptyStation
    else if invalidStationKeys station ≠ [] then
      .error (.invalidStation (invalidStationKeys station))
    else if invalidTimeKeys time valid ≠ [] then
      .error (.invalidTime (invalidTimeKeys time valid))
    else
      .ok ⟨token, service, serviceUrl service, station, time, opt_params⟩

/-- Default-injection rule opening request_data: a TimeSeries request
with a vars selector whose value contains "precip" (Python membership:
substring for a string value, element equality for a list value) and no
caller-supplied precip option gains opt_params["precip"] = 1.  This
updates the stored descriptor attribute in place. -/
def inject_precip (sd : SynopticData) : Except PyErr SynopticData :=
  if sd.service = "TimeSeries" then
    match dictGet? sd.station "vars" with
    | some vv => do
      let hasPrecip ← pyInStr "precip" vv
      if hasPrecip ∧ "precip" ∉ dictKeys sd.opt_params then
        pure { sd with opt_params := dictSet sd.opt_params "precip" (.num 1) }
      else
        pure sd
    | none => pure sd
  else
    pure sd

/-- pmode flag of request_data: set when the options carry a pmode key. -/
def pmodeFlag (opt_params : PyDict) : Bool :=
  (dictKeys opt_params).contains "pmode"

/-- qc flag of request_data: qc_flag set to the string on, or qc set to
the string on without qc_flag set to the string off. -/
def strItem (kv : String × JVal) (k s : String) : Bool :=
  kv.1 = k && (match kv.2 with | .str s' => s' = s | _ => false)

def qcFlag (opt_params : PyDict) : Bool :=
  opt_params.any (fun kv => strItem kv "qc_flag" "on")
    ∨ (opt_params.any (fun kv => strItem kv "qc" "on")
        ∧ ¬ opt_params.any (fun kv => strItem kv "qc_flag" "off"))

/-- Combined query dictionary of request_data: a copy of the station
selectors updated with the time selectors, the options, and finally the
token entry. -/
def buildQsp (sd : SynopticData) : PyDict :=
  let qsp := sd.station
  let qsp := if sd.time.isEmpty then qsp else dictUpdate qsp sd.time
  let qsp := if sd.opt_params.isEmpty then qsp else dictUpdate qsp sd.opt_params
  dictSet qsp "token" (.str sd.token)

/-- Request URL: service endpoint followed by the encoded query string. -/
def requestUrl (sd : SynopticData) : String :=
  sd.url0 ++ build_query_string (buildQsp sd)

/-- Time format option of request_data (threaded through untouched
under the timestamp abstraction). -/
def timeFormatOf (opt_params : PyDict) : JVal :=
  (dictGet? opt_params "timeformat").getD (.str "%Y-%m-%d %H:%M")

/-- Unit-name rename pass of request_data: every unit value that is a
key of the static units_map table is replaced by its mapped spelling. -/
def renameUnits (units : PyDict) : PyDict :=
  units.map (fun kv =>
    (kv.1,
      match kv.2 with
      | .str s =>
        match tableGet? units_map s with
        | some s' => JVal.str s'
        | none => JVal.str s
      | v => v))

/-- Unit-map construction of request_data: for every observation-table
column, every renamed unit name found as a substring of the column name
updates the unit entry for that column, so among several matches the
last unit name in the payload order wins. -/
def build_units_dic (units : PyDict) (columns : List String) : PyDict :=
  let renamed := renameUnits units
  columns.foldl
    (fun dic column =>
      renamed.foldl
        (fun dic kv =>
          if isSubstrChars kv.1.data column.data then dictSet dic column kv.2 else dic)
        dic)
    []

/-- Observation output of a request: the station-path DataFrame or the
Precip-path indexed table. -/
inductive TableOut where
  | stn (df : DF) : TableOut
  | precip (p : PrecipDF) : TableOut

/-- Column labels of the observation output, the axis the unit map is
matched against. -/
def TableOut.columns : TableOut → List String
  | .stn df => df.cols
  | .precip p => p.table.cols

/-- Value returned by request_data: the observation table, the unit map,
the station metadata, and, only when quality control was requested, the
fourth tuple slot carrying either the QC table or None. -/
structure Output where
  data_df : TableOut
  unit_dic : PyDict
  meta_df : List MetaRow
  qc_df : Option (Option DF)

/-- Success continuation of request_data, entered once the summary gate
passes: service dispatch to the normalizer, the unit map, and the
QC-table reset to None when it ends up with no columns.  The pmode and
qc flags and the time format are pure reads of the post-injection
options, recomputed here unchanged.  On the Precip path with quality
control requested the source reads a never-assigned qc_df variable,
raising UnboundLocalError (nameError). -/
def buildTables (sd : SynopticData) (resp : JVal) : Except PyErr Output := do
  let pmode := pmodeFlag sd.opt_params
  let qc_flag := qcFlag sd.opt_params
  let time_format := timeFormatOf sd.opt_params
  let stations ← jArr (← jGet resp "STATION")
  let (tbl, metas, qcTbl) ←
    if sd.service ≠ "Precip" then do
      let (data_df, meta_df, qc_df) ← return_stn_df stations time_format qc_flag sd.service
      let _ ← variable_details stations
      pure (TableOut.stn data_df, meta_df, some qc_df)
    else do
      let (p, meta_df) ← return_precip_df stations time_format pmode
      pure (TableOut.precip p, meta_df, (none : Option DF))
  let units ← jObj (← jGet resp "UNITS")
  let unit_dic := build_units_dic units tbl.columns
  if qc_flag then
    match qcTbl with
    | some qc_df =>
      let qcOut := if qc_df.cols.isEmpty then none else some qc_df
      pure ⟨tbl, unit_dic, metas, some qcOut⟩
    | none => .error .nameError
  else
    pure ⟨tbl, unit_dic, metas, none⟩

/-- request_data from the source, with the decoded JSON response passed
in place of the single blocking GET.  Steps in source order: precip
default injection (mutating the stored opt_params), URL construction,
the summary response-code gate (sys.exit with the service-provided
message on failure), then the table-building continuation.  The updated
descriptor is returned alongside the output to expose the attribute
mutation. -/
def request_data (sd : SynopticData) (resp : JVal) :
    Except PyErr (Output × SynopticData) := do
  let sd ← inject_precip sd
  let _url := requestUrl sd
  let summary ← jGet resp "SUMMARY"
  let code ← jGet summary "RESPONSE_CODE"
  if ¬ jEqOne code then
    let msg ← jGet summary "RESPONSE_MESSAGE"
    .error (.systemExit msg)
  else
    (buildTables sd resp).map (fun out => (out, sd))

/-! Basic lemmas about the Except monad and the dictionary model. -/

@[simp]
theorem exceptPure_eq_ok {α ε : Type} (a : α) :
    (pure a : Except ε α) = Except.ok a := rfl

@[simp]
theorem exceptBind_ok {α β ε : Type} (a : α) (f : α → Except ε β) :
    (Except.ok a >>= f) = f a := rfl

@[simp]
theorem exceptBind_error {α β ε : Type} (e : ε) (f : α → Except ε β) :
    ((Except.error e : Except ε α) >>= f) = Except.error e := rfl

@[simp]
theorem exceptMap_ok {α β ε : Type} (f : α → β) (a : α) :
    (Except.ok a : Except ε α).map f = Except.ok (f a) := rfl

@[simp]
theorem exceptMap_error {α β ε : Type} (f : α → β) (e : ε) :
    (Except.error e : Except ε α).map f = Except.error e := rfl

theorem dictKeys_append (d d' : PyDict) :
    dictKeys (d ++ d') = dictKeys d ++ dictKeys d' := by
  simp [dictKeys]

theorem dictGet?_cons_ne (k k' : String) (v : JVal) (d : PyDict) (h : k' ≠ k) :
    dictGet? ((k', v) :: d) k = dictGet? d k := by
  simp [dictGet?, h]

theorem dictSet_of_not_mem (d : PyDict) (k : String) (v : JVal)
    (h : k ∉ dictKeys d) : dictSet d k v = d ++ [(k, v)] := by
  induction d with
  | nil => rfl
  | cons kv rest ih =>
    simp only [dictKeys, List.map_cons, List.mem_cons, not_or] at h
    simp only [dictSet, if_neg (Ne.symm h.1), List.cons_append]
    rw [ih (by simpa [dictKeys] using h.2)]

theorem dictUpdate_nil (d : PyDict) : dictUpdate d [] = d := rfl

theorem dictUpdate_append (d d2 : PyDict)
    (hnd : (dictKeys d2).Nodup)
    (hdisj : ∀ k ∈ dictKeys d2, k ∉ dictKeys d) :
    dictUpdate d d2 = d ++ d2 := by
  induction d2 generalizing d with
  | nil => simp [dictUpdate]
  | cons kv rest ih =>
    simp only [dictKeys, List.map_cons, List.nodup_cons] at hnd
    have hcons : dictKeys (kv :: rest) = kv.1 :: dictKeys rest := rfl
    have hk : kv.1 ∉ dictKeys d := hdisj kv.1 (hcons ▸ List.mem_cons_self _ _)
    have step : dictUpdate d (kv :: rest) = dictUpdate (dictSet d kv.1 kv.2) rest := rfl
    rw [step, dictSet_of_not_mem d kv.1 kv.2 hk]
    rw [ih (d ++ [(kv.1, kv.2)]) hnd.2]
    · simp
    · intro k hkmem
      rw [dictKeys_append]
      simp only [List.mem_append, not_or]
      refine ⟨hdisj k (hcons ▸ List.mem_cons_of_mem _ hkmem), ?_⟩
      simp only [dictKeys, List.map_cons, List.map_nil, List.mem_singleton]
      intro hEq
      exact hnd.1 (hEq ▸ hkmem)

/-! C1: constructor validation. -/

/-- C1: for every request descriptor with a recognized service kind, if
the station mapping contains a key outside the fixed station allow-list,
or the station mapping is empty, or the time mapping contains a key
outside the per-service time allow-list, then SynopticData.__init__
fails with the corresponding invalid-parameter exit, naming the
offending keys (carried by the error constructors), and no descriptor
is constructed — hence no network call can be issued, transport input
being reachable only through request_data on a constructed descriptor. -/
theorem init_invalid_parameters (token service : String)
    (station time opt_params : PyDict) (valid : List String)
    (hs : valid_time_keys service = some valid)
    (hbad : invalidStationKeys station ≠ [] ∨ station = []
            ∨ invalidTimeKeys time valid ≠ []) :
    SynopticData.init token service station time opt_params =
      .error
        (if station.isEmpty then .emptyStation
         else if invalidStationKeys station ≠ [] then
           .invalidStation (invalidStationKeys station)
         else .invalidTime (invalidTimeKeys time valid)) := by
  simp only [SynopticData.init, hs]
  by_cases h1 : station.isEmpty
  · rw [if_pos h1, if_pos h1]
  · rw [if_neg h1, if_neg h1]
    by_cases h2 : invalidStationKeys station ≠ []
    · rw [if_pos h2, if_pos h2]
    · rw [if_neg h2, if_neg h2]
      have h3 : invalidTimeKeys time valid ≠ [] := by
        rcases hbad with h | h | h
        · exact absurd h h2
        · exact absurd (by simp [h]) h1
        · exact h
      rw [if_pos h3]

/-- Witness for C1 at a concrete input: a Latest request whose station
mapping holds the invalid key foo fails naming that key. -/
theorem init_invalid_parameters_witness :
    SynopticData.init "tok" "Latest" [("foo", JVal.null)] [] [] =
      .error (.invalidStation ["foo"]) := by
  have h := init_invalid_parameters "tok" "Latest" [("foo", JVal.null)] [] []
    ["within", "minmax", "minmaxtype"] rfl (Or.inl (by decide))
  simpa using h

/-! C4: summary response-code gate. -/

/-- C4: for every decoded response whose summary response code is not
the success value 1, request_data fails with the remote-service exit
carrying exactly the service-provided response message (so no
observation, metadata, unit, or QC table is produced), and for every
response whose code is 1 this failure branch is not taken: the call is
exactly the success continuation.  The default-injection step precedes
the gate in the source and is assumed to succeed. -/
theorem response_code_gate (sd sd₂ : SynopticData) (resp summary code msg : JVal)
    (hinj : inject_precip sd = .ok sd₂)
    (h1 : jGet resp "SUMMARY" = .ok summary)
    (h2 : jGet summary "RESPONSE_CODE" = .ok code)
    (h3 : jGet summary "RESPONSE_MESSAGE" = .ok msg) :
    (¬ jEqOne code → request_data sd resp = .error (.systemExit msg))
    ∧ (jEqOne code →
        request_data sd resp = (buildTables sd₂ resp).map (fun out => (out, sd₂))) := by
  constructor <;> intro hc <;>
    simp [request_data, hinj, h1, h2, h3, hc]

/-- Witness for C4 at a concrete input: a response with code 2 fails
with exactly the service message. -/
theorem response_code_gate_witness :
    request_data
      ⟨"t", "Latest", serviceUrl "Latest", [("stid", JVal.str "X")], [], []⟩
      (.obj [("SUMMARY",
        .obj [("RESPONSE_CODE", JVal.num 2), ("RESPONSE_MESSAGE", JVal.str "No stations")])])
      = .error (.systemExit (.str "No stations")) :=
  (response_code_gate
    ⟨"t", "Latest", serviceUrl "Latest", [("stid", JVal.str "X")], [], []⟩
    ⟨"t", "Latest", serviceUrl "Latest", [("stid", JVal.str "X")], [], []⟩
    (.obj [("SUMMARY",
      .obj [("RESPONSE_CODE", JVal.num 2), ("RESPONSE_MESSAGE", JVal.str "No stations")])])
    (.obj [("RESPONSE_CODE", JVal.num 2), ("RESPONSE_MESSAGE", JVal.str "No stations")])
    (JVal.num 2) (JVal.str "No stations") rfl rfl rfl rfl).1 (by decide)

/-! C3: derived-precipitation default injection. -/

/-- C3 counterexample: a TimeSeries descriptor whose vars list holds the
precipitation variable precip_accum and whose options are empty comes
through the injection step unchanged — no precip option is added,
although the claim requires the option precip = 1 to be added whenever
the variable list includes a precipitation variable and no precip
option was supplied. -/
theorem inject_precip_listed_variable_counterexample :
    ∃ sd' : SynopticData,
      inject_precip
        ⟨"t", "TimeSeries", serviceUrl "TimeSeries",
          [("stid", JVal.str "KSLC"), ("vars", JVal.arr [JVal.str "precip_accum"])],
          [], []⟩ = .ok sd'
      ∧ sd'.opt_params = []
      ∧ ([] : PyDict) ≠ [("precip", JVal.num 1)] :=
  ⟨_, rfl, rfl, by simp⟩

/-- C3 amended: the injection checks Python membership of the exact
string precip in the vars value — element equality for a list-valued
selector, substring containment for a string-valued selector — rather
than inclusion of an arbitrary precipitation variable.  Under that
membership test, with no caller-supplied precip option, the option
precip = 1 is appended on the TimeSeries service; with a caller-supplied
precip key (any value) nothing is added; off the TimeSeries service or
without a vars selector nothing is added. -/
theorem inject_precip_semantics (sd : SynopticData) :
    (∀ vs, dictGet? sd.station "vars" = some (.arr vs) →
       sd.service = "TimeSeries" →
       vs.any (fun e => match e with | .str s => s = "precip" | _ => false) →
       "precip" ∉ dictKeys sd.opt_params →
       inject_precip sd =
         .ok { sd with opt_params := dictSet sd.opt_params "precip" (.num 1) })
    ∧ (∀ s, dictGet? sd.station "vars" = some (.str s) →
       sd.service = "TimeSeries" →
       isSubstrChars "precip".data s.data →
       "precip" ∉ dictKeys sd.opt_params →
       inject_precip sd =
         .ok { sd with opt_params := dictSet sd.opt_params "precip" (.num 1) })
    ∧ (∀ v b, dictGet? sd.station "vars" = some v → pyInStr "precip" v = .ok b →
       "precip" ∈ dictKeys sd.opt_params → inject_precip sd = .ok sd)
    ∧ (sd.service ≠ "TimeSeries" → inject_precip sd = .ok sd)
    ∧ (dictGet? sd.station "vars" = none → inject_precip sd = .ok sd) := by
  refine ⟨?_, ?_, ?_, ?_, ?_⟩
  · intro vs hv hsvc hany hopt
    simp [inject_precip, hsvc, hv, pyInStr, hany, hopt]
  · intro s hv hsvc hsub hopt
    simp [inject_precip, hsvc, hv, pyInStr, hsub, hopt]
  · intro v b hv hb hopt
    by_cases hsvc : sd.service = "TimeSeries"
    · simp [inject_precip, hsvc, hv, hb, hopt]
    · simp [inject_precip, hsvc]
  · intro hsvc
    simp [inject_precip, hsvc]
  · intro hv
    by_cases hsvc : sd.service = "TimeSeries"
    · simp [inject_precip, hsvc, hv]
    · simp [inject_precip, hsvc]

/-- Witness for C3 at concrete inputs: injection fires for a vars list
holding precip exactly, and is skipped when a precip option exists. -/
theorem inject_precip_semantics_witness :
    inject_precip
      ⟨"t", "TimeSeries", serviceUrl "TimeSeries",
        [("vars", JVal.arr [JVal.str "air_temp", JVal.str "precip"])], [], []⟩
      = .ok ⟨"t", "TimeSeries", serviceUrl "TimeSeries",
        [("vars", JVal.arr [JVal.str "air_temp", JVal.str "precip"])], [],
        [("precip", JVal.num 1)]⟩
    ∧ inject_precip
      ⟨"t", "TimeSeries", serviceUrl "TimeSeries",
        [("vars", JVal.arr [JVal.str "precip"])], [], [("precip", JVal.num 0)]⟩
      = .ok ⟨"t", "TimeSeries", serviceUrl "TimeSeries",
        [("vars", JVal.arr [JVal.str "precip"])], [], [("precip", JVal.num 0)]⟩ := by
  constructor
  · exact (inject_precip_semantics _).1 [JVal.str "air_temp", JVal.str "precip"]
      rfl rfl (by decide) (by decide)
  · exact (inject_precip_semantics _).2.2.1 (JVal.arr [JVal.str "precip"]) true
      rfl rfl (by decide)

/-! C9: effect of request_data on the stored descriptor. -/

theorem inject_precip_fields (sd sd' : SynopticData)
    (h : inject_precip sd = .ok sd') :
    sd'.token = sd.token ∧ sd'.service = sd.service ∧ sd'.url0 = sd.url0
    ∧ sd'.station = sd.station ∧ sd'.time = sd.time
    ∧ (sd'.opt_params = sd.opt_params
       ∨ sd'.opt_params = dictSet sd.opt_params "precip" (.num 1)) := by
  unfold inject_precip at h
  split at h
  · split at h
    · rename_i vv _
      cases hp : pyInStr "precip" vv with
      | error e => rw [hp] at h; simp at h
      | ok b =>
        rw [hp] at h
        simp only [exceptBind_ok] at h
        split at h <;>
          (simp only [exceptPure_eq_ok, Except.ok.injEq] at h; subst h; simp)
    · simp only [exceptPure_eq_ok, Except.ok.injEq] at h
      subst h; simp
  · simp only [exceptPure_eq_ok, Except.ok.injEq] at h
    subst h; simp

theorem request_data_descriptor (sd : SynopticData) (resp : JVal)
    (out : Output) (sd' : SynopticData)
    (h : request_data sd resp = .ok (out, sd')) :
    inject_precip sd = .ok sd' := by
  unfold request_data at h
  cases hinj : inject_precip sd with
  | error e => rw [hinj] at h; simp at h
  | ok sd₂ =>
    rw [hinj] at h
    simp only [exceptBind_ok] at h
    cases h1 : jGet resp "SUMMARY" with
    | error e => rw [h1] at h; simp at h
    | ok summary =>
      rw [h1] at h
      simp only [exceptBind_ok] at h
      cases h2 : jGet summary "RESPONSE_CODE" with
      | error e => rw [h2] at h; simp at h
      | ok code =>
        rw [h2] at h
        simp only [exceptBind_ok] at h
        by_cases hc : jEqOne code
        · rw [if_neg (by simp [hc])] at h
          cases hb : buildTables sd₂ resp with
          | error e => rw [hb] at h; simp at h
          | ok o =>
            rw [hb] at h
            simp only [exceptMap_ok, Except.ok.injEq, Prod.mk.injEq] at h
            rw [h.2]
        · rw [if_pos (by simp [hc])] at h
          cases h3 : jGet summary "RESPONSE_MESSAGE" with
          | error e => rw [h3] at h; simp at h
          | ok msg => rw [h3] at h; simp at h

/-- C9 counterexample: a full request_data call on a TimeSeries
descriptor whose vars list holds precip and whose option mapping is
empty returns a descriptor whose option mapping has gained the entry
precip = 1 — the option mapping does not hold exactly the entries the
caller supplied. -/
theorem request_data_mutates_options_counterexample :
    ∃ (out : Output) (sd' : SynopticData),
      request_data
        ⟨"t", "TimeSeries", serviceUrl "TimeSeries",
          [("stid", JVal.str "KSLC"), ("vars", JVal.arr [JVal.str "precip"])], [], []⟩
        (.obj [("SUMMARY",
                 .obj [("RESPONSE_CODE", JVal.num 1), ("RESPONSE_MESSAGE", JVal.str "OK")]),
               ("UNITS", .obj []),
               ("STATION", .arr [.obj
                 [("STID", JVal.str "KSLC"), ("LONGITUDE", JVal.null),
                  ("LATITUDE", JVal.null), ("ELEVATION", JVal.null),
                  ("OBSERVATIONS", .obj [("date_time", JVal.arr [])]),
                  ("SENSOR_VARIABLES", .obj [])]])])
        = .ok (out, sd')
      ∧ sd'.opt_params = [("precip", JVal.num 1)]
      ∧ [("precip", JVal.num 1)] ≠ ([] : PyDict) :=
  ⟨_, _, rfl, rfl, by simp⟩

/-- C9 amended: a request_data call leaves the descriptor's station
mapping, time mapping, token, and service untouched; the option mapping
is also untouched except that the TimeSeries derived-precipitation rule
may append the single entry precip = 1. -/
theorem request_data_preserves_descriptor (sd : SynopticData) (resp : JVal)
    (out : Output) (sd' : SynopticData)
    (h : request_data sd resp = .ok (out, sd')) :
    sd'.station = sd.station ∧ sd'.time = sd.time ∧ sd'.token = sd.token
    ∧ sd'.service = sd.service
    ∧ (sd'.opt_params = sd.opt_params
       ∨ sd'.opt_params = dictSet sd.opt_params "precip" (.num 1)) := by
  have hfields := inject_precip_fields sd sd' (request_data_descriptor sd resp out sd' h)
  exact ⟨hfields.2.2.2.1, hfields.2.2.2.2.1, hfields.1, hfields.2.1, hfields.2.2.2.2.2⟩

/-- Witness for C9 at a concrete input: a Latest request leaves every
descriptor field unchanged. -/
theorem request_data_preserves_descriptor_witness :
    (⟨"t", "Latest", serviceUrl "Latest", [("stid", JVal.str "KSLC")], [], []⟩
        : SynopticData).station = [("stid", JVal.str "KSLC")]
    ∧ (⟨"t", "Latest", serviceUrl "Latest", [("stid", JVal.str "KSLC")], [], []⟩
        : SynopticData).time = ([] : PyDict) := by
  have h := request_data_preserves_descriptor
    ⟨"t", "Latest", serviceUrl "Latest", [("stid", JVal.str "KSLC")], [], []⟩
    (.obj [("SUMMARY",
             .obj [("RESPONSE_CODE", JVal.num 1), ("RESPONSE_MESSAGE", JVal.str "OK")]),
           ("UNITS", .obj []),
           ("STATION", .arr [.obj
             [("STID", JVal.str "KSLC"), ("LONGITUDE", JVal.null),
              ("LATITUDE", JVal.null), ("ELEVATION", JVal.null),
              ("OBSERVATIONS", .obj [("air_temp",
                 .obj [("date_time", JVal.num 5), ("value", JVal.num 20)])]),
              ("SENSOR_VARIABLES", .obj [])]])])
    _ _ rfl
  exact ⟨h.1, h.2.1⟩

/-! C7: unit-map construction. -/

theorem dictSet_dictSet (d : PyDict) (k : String) (v w : JVal) :
    dictSet (dictSet d k v) k w = dictSet d k w := by
  induction d with
  | nil => simp [dictSet]
  | cons kv rest ih =>
    by_cases hk : kv.1 = k
    · simp [dictSet, hk]
    · simp [dictSet, hk, ih]

theorem dictGet?_dictSet_self (d : PyDict) (k : String) (v : JVal) :
    dictGet? (dictSet d k v) k = some v := by
  induction d with
  | nil => simp [dictSet, dictGet?]
  | cons kv rest ih =>
    by_cases hk : kv.1 = k
    · simp [dictSet, hk, dictGet?]
    · simp [dictSet, hk, dictGet?, ih]

theorem dictGet?_dictSet_ne (d : PyDict) (k k' : String) (v : JVal) (h : k' ≠ k) :
    dictGet? (dictSet d k v) k' = dictGet? d k' := by
  induction d with
  | nil => simp [dictSet, dictGet?, Ne.symm h]
  | cons kv rest ih =>
    by_cases hk : kv.1 = k
    · subst hk
      simp [dictSet, dictGet?, Ne.symm h]
    · by_cases hk' : kv.1 = k'
      · simp [dictSet, hk, dictGet?, hk', h]
      · simp [dictSet, hk, dictGet?, hk', ih]

theorem dictKeys_dictSet_sub (d : PyDict) (k : String) (v : JVal) :
    ∀ k' ∈ dictKeys (dictSet d k v), k' ∈ dictKeys d ∨ k' = k := by
  induction d with
  | nil => simp [dictSet, dictKeys]
  | cons kv rest ih =>
    intro k' hmem
    by_cases hk : kv.1 = k
    · simp only [dictSet, if_pos hk, dictKeys, List.map_cons, List.mem_cons] at hmem ⊢
      rcases hmem with h | h
      · exact Or.inl (Or.inl h)
      · exact Or.inl (Or.inr h)
    · simp only [dictSet, if_neg hk, dictKeys, List.map_cons, List.mem_cons] at hmem ⊢
      rcases hmem with h | h
      · exact Or.inl (Or.inl h)
      · rcases ih k' h with h' | h'
        · exact Or.inl (Or.inr h')
        · exact Or.inr h'

/-- Last unit value, in payload order, among the renamed unit names
occurring as substrings of the column name; the entry the source's
update loop leaves in the unit dictionary for that column. -/
def lastMatch (column : String) : PyDict → Option JVal
  | [] => none
  | kv :: rest =>
    match lastMatch column rest with
    | some v => some v
    | none => if isSubstrChars kv.1.data column.data then some kv.2 else none

theorem units_inner_fold (column : String) (renamed dic : PyDict) :
    renamed.foldl
      (fun dic kv =>
        if isSubstrChars kv.1.data column.data then dictSet dic column kv.2 else dic)
      dic
    = match lastMatch column renamed with
      | some v => dictSet dic column v
      | none => dic := by
  induction renamed generalizing dic with
  | nil => rfl
  | cons kv rest ih =>
    simp only [List.foldl_cons, lastMatch]
    by_cases hm : isSubstrChars kv.1.data column.data
    · rw [if_pos hm, ih]
      cases hl : lastMatch column rest with
      | some v => simp [dictSet_dictSet]
      | none => simp [hm]
    · rw [if_neg hm, ih]
      cases hl : lastMatch column rest <;> simp [hm]

theorem units_outer_not_mem (renamed : PyDict) (columns : List String)
    (dic : PyDict) (c : String) (h : c ∉ columns) :
    dictGet?
      (columns.foldl
        (fun dic column =>
          renamed.foldl
            (fun dic kv =>
              if isSubstrChars kv.1.data column.data then dictSet dic column kv.2 else dic)
            dic)
        dic) c
    = dictGet? dic c := by
  induction columns generalizing dic with
  | nil => rfl
  | cons col cols ih =>
    simp only [List.mem_cons, not_or] at h
    rw [List.foldl_cons, ih _ h.2, units_inner_fold]
    cases hl : lastMatch col renamed with
    | none => rfl
    | some v => exact dictGet?_dictSet_ne dic col c v h.1

theorem units_outer_lookup (renamed : PyDict) (columns : List String)
    (dic : PyDict) (c : String) (h : c ∈ columns) :
    dictGet?
      (columns.foldl
        (fun dic column =>
          renamed.foldl
            (fun dic kv =>
              if isSubstrChars kv.1.data column.data then dictSet dic column kv.2 else dic)
            dic)
        dic) c
    = match lastMatch c renamed with
      | some v => some v
      | none => dictGet? dic c := by
  induction columns generalizing dic with
  | nil => cases h
  | cons col cols ih =>
    rw [List.foldl_cons]
    by_cases hc : c ∈ cols
    · rw [ih _ hc, units_inner_fold]
      cases hl : lastMatch c renamed with
      | some v => rfl
      | none =>
        cases hl' : lastMatch col renamed with
        | none => rfl
        | some v =>
          by_cases hcol : c = col
          · subst hcol
            rw [hl] at hl'
            cases hl'
          · exact dictGet?_dictSet_ne dic col c v hcol
    · have hcol : c = col := by
        rcases List.mem_cons.mp h with h' | h'
        · exact h'
        · exact absurd h' hc
      subst hcol
      rw [units_outer_not_mem renamed cols _ c hc, units_inner_fold]
      cases hl : lastMatch c renamed with
      | some v => exact dictGet?_dictSet_self dic c v
      | none => rfl

theorem units_outer_keys (renamed : PyDict) (columns : List String) (dic : PyDict) :
    ∀ kv ∈ columns.foldl
        (fun dic column =>
          renamed.foldl
            (fun dic kv =>
              if isSubstrChars kv.1.data column.data then dictSet dic column kv.2 else dic)
            dic)
        dic,
      kv.1 ∈ dictKeys dic ∨ kv.1 ∈ columns := by
  induction columns generalizing dic with
  | nil =>
    intro kv hmem
    exact Or.inl (List.mem_map_of_mem Prod.fst hmem)
  | cons col cols ih =>
    intro kv hmem
    rw [List.foldl_cons] at hmem
    rcases ih _ kv hmem with h | h
    · rw [units_inner_fold] at h
      rcases hl : lastMatch col renamed with _ | v
      · rw [hl] at h
        exact Or.inl h
      · rw [hl] at h
        rcases dictKeys_dictSet_sub dic col v kv.1 h with h' | h'
        · exact Or.inl h'
        · exact Or.inr (by simp [h'])
    · exact Or.inr (List.mem_cons_of_mem col h)

/-- Specification variant, written from the spec words for the
refinement comparison: the unit of the FIRST renamed unit name occurring
as a substring of the column name is assigned. -/
def build_units_dic_first (units : PyDict) (columns : List String) : PyDict :=
  columns.foldl
    (fun dic column =>
      match (renameUnits units).find? (fun kv => isSubstrChars kv.1.data column.data) with
      | some kv => dictSet dic column kv.2
      | none => dic)
    []

/-- C7 counterexample: with the raw unit payload listing air_temp in
Celsius before temp in Fahrenheit, the column air_temp_set_1 matches
both names as substrings; the source assigns the LAST matching name's
unit (degF after rename), while the first-match rule stated by the
claim would assign degC. -/
theorem units_last_match_counterexample :
    build_units_dic
        [("air_temp", JVal.str "Celsius"), ("temp", JVal.str "Fahrenheit")]
        ["air_temp_set_1"]
      = [("air_temp_set_1", JVal.str "degF")]
    ∧ build_units_dic_first
        [("air_temp", JVal.str "Celsius"), ("temp", JVal.str "Fahrenheit")]
        ["air_temp_set_1"]
      = [("air_temp_set_1", JVal.str "degC")]
    ∧ JVal.str "degF" ≠ JVal.str "degC" :=
  ⟨rfl, rfl, by simp⟩

/-- C7 amended: the unit map is built by first replacing every raw unit
string found in the static rename table with its mapped spelling, then
assigning to each observation-table column the unit of the LAST (in
unit-payload order) remote unit name occurring as a substring of the
column name; columns matching no unit name receive no entry, and the
unit-map keys are always among the observation-table columns. -/
theorem unit_map_semantics (units : PyDict) (columns : List String) :
    (∀ kv ∈ build_units_dic units columns, kv.1 ∈ columns)
    ∧ (∀ c ∈ columns,
        dictGet? (build_units_dic units columns) c = lastMatch c (renameUnits units)) := by
  constructor
  · intro kv hmem
    rcases units_outer_keys (renameUnits units) columns [] kv hmem with h | h
    · cases h
    · exact h
  · intro c hc
    rw [build_units_dic, units_outer_lookup (renameUnits units) columns [] c hc]
    cases hl : lastMatch c (renameUnits units) <;> rfl

/-- Witness for C7 at a concrete input: the doubly matched column
receives the last matching name's renamed unit. -/
theorem unit_map_semantics_witness :
    dictGet?
        (build_units_dic
          [("air_temp", JVal.str "Celsius"), ("temp", JVal.str "Fahrenheit")]
          ["air_temp_set_1"])
        "air_temp_set_1"
      = lastMatch "air_temp_set_1"
          (renameUnits [("air_temp", JVal.str "Celsius"), ("temp", JVal.str "Fahrenheit")]) :=
  (unit_map_semantics
    [("air_temp", JVal.str "Celsius"), ("temp", JVal.str "Fahrenheit")]
    ["air_temp_set_1"]).2 "air_temp_set_1" (by simp)

/-! C2: request URL construction. -/

theorem init_ok_fields (token service : String) (station time opt_params : PyDict)
    (sd : SynopticData)
    (h : SynopticData.init token service station time opt_params = .ok sd) :
    sd = ⟨token, service, serviceUrl service, station, time, opt_params⟩ := by
  cases hs : valid_time_keys service with
  | none => simp only [SynopticData.init, hs] at h; cases h
  | some valid =>
    simp only [SynopticData.init, hs] at h
    by_cases h1 : station.isEmpty
    · rw [if_pos h1] at h; cases h
    · rw [if_neg h1] at h
      by_cases h2 : invalidStationKeys station ≠ []
      · rw [if_pos h2] at h; cases h
      · rw [if_neg h2] at h
        by_cases h3 : invalidTimeKeys time valid ≠ []
        · rw [if_pos h3] at h; cases h
        · rw [if_neg h3] at h
          cases h; rfl

/-- C2: for every descriptor the constructor accepts, with well-formed
caller dictionaries (unique keys, pairwise disjoint across the three
mappings, none named token), the request URL is exactly the fixed
endpoint of the chosen service followed by the percent-encoding of the
parameter list that is the concatenation of the station entries, time
entries, option entries and the token entry, with every list value
comma-joined.  Key disjointness also makes the result independent of
which mapping an entry arrives in, matching the order-insensitivity of
the remote API. -/
theorem request_url_exact (token service : String)
    (station time opt_params : PyDict) (sd : SynopticData)
    (hinit : SynopticData.init token service station time opt_params = .ok sd)
    (hnd : (dictKeys (station ++ time ++ opt_params)).Nodup)
    (htok : "token" ∉ dictKeys (station ++ time ++ opt_params)) :
    requestUrl sd
      = serviceUrl service
        ++ urlencode
          ((station ++ time ++ opt_params ++ [("token", JVal.str token)]).map
            (fun kv => (kv.1, commaJoin kv.2))) := by
  obtain rfl := init_ok_fields token service station time opt_params sd hinit
  rw [dictKeys_append, dictKeys_append] at hnd htok
  rw [List.nodup_append] at hnd
  obtain ⟨hndST, hndO, hdisjSTO⟩ := hnd
  rw [List.nodup_append] at hndST
  obtain ⟨hndS, hndT, hdisjST⟩ := hndST
  unfold requestUrl build_query_string buildQsp
  dsimp only
  have h1 : (if time.isEmpty = true then station else dictUpdate station time)
      = station ++ time := by
    by_cases ht : time.isEmpty
    · rw [if_pos ht, List.isEmpty_iff.mp ht, List.append_nil]
    · rw [if_neg ht]
      exact dictUpdate_append station time hndT
        (fun k hk hk' => hdisjST hk' hk)
  rw [h1]
  have h2 : (if opt_params.isEmpty = true then station ++ time
        else dictUpdate (station ++ time) opt_params)
      = station ++ time ++ opt_params := by
    by_cases ho : opt_params.isEmpty
    · rw [if_pos ho, List.isEmpty_iff.mp ho, List.append_nil]
    · rw [if_neg ho]
      refine dictUpdate_append (station ++ time) opt_params hndO ?_
      intro k hk
      rw [dictKeys_append]
      exact fun h' => hdisjSTO h' hk
  rw [h2]
  have h3 : dictSet (station ++ time ++ opt_params) "token" (JVal.str token)
      = station ++ time ++ opt_params ++ [("token", JVal.str token)] := by
    refine dictSet_of_not_mem _ _ _ ?_
    rw [dictKeys_append, dictKeys_append]
    exact htok
  rw [h3]

/-- Witness for C2 at a concrete input: a TimeSeries request with a
two-variable selector list and a start/end window. -/
theorem request_url_exact_witness :
    requestUrl
      ⟨"T0K", "TimeSeries", serviceUrl "TimeSeries",
        [("stid", JVal.str "KSLC"),
         ("vars", JVal.arr [JVal.str "air_temp", JVal.str "wind_speed"])],
        [("start", JVal.num 202206010000), ("end", JVal.num 202206020000)], []⟩
      = serviceUrl "TimeSeries"
        ++ urlencode
          (([("stid", JVal.str "KSLC"),
             ("vars", JVal.arr [JVal.str "air_temp", JVal.str "wind_speed"])]
            ++ [("start", JVal.num 202206010000), ("end", JVal.num 202206020000)]
            ++ []
            ++ [("token", JVal.str "T0K")]).map
            (fun kv : String × JVal => (kv.1, commaJoin kv.2))) :=
  request_url_exact "T0K" "TimeSeries"
    [("stid", JVal.str "KSLC"),
     ("vars", JVal.arr [JVal.str "air_temp", JVal.str "wind_speed"])]
    [("start", JVal.num 202206010000), ("end", JVal.num 202206020000)] [] _
    rfl (by decide) (by decide)

/-! Well-shaped TimeSeries responses: the family of station records the
TimeSeries normalizer consumes, parametrized by identifier, metadata
field values, shared timestamp axis, variable columns, optional QC
block, and sensor payload.  Quantifying over this family expresses
claims about every successful TimeSeries response. -/

/-- Optional float the metadata loop stores when float conversion is
guarded by the TypeError handler. -/
def optRat (v : JVal) : Option Rat :=
  match pyFloat v with
  | .ok q => some q
  | .error _ => none

/-- Metadata field values the guarded conversion tolerates: conversion
succeeds, or raises exactly the caught TypeError. -/
def metaOk (v : JVal) : Bool :=
  match pyFloat v with
  | .ok _ => true
  | .error .typeError => true
  | .error _ => false

/-- Timestamp literal of the response under the parsed-timestamp
abstraction. -/
def natNum (t : Nat) : JVal := .num (t : Rat)

structure TSIn where
  stid : String
  lon : JVal
  lat : JVal
  elev : JVal
  times : List Nat
  vars : List (String × List JVal)
  qcv : Option (List (String × List JVal))
  sensors : JVal

/-- Station record of the response, in the shape the TimeSeries branch
of return_stn_df walks. -/
def TSIn.jrec (s : TSIn) : JVal :=
  .obj
    ([("STID", .str s.stid), ("LONGITUDE", s.lon), ("LATITUDE", s.lat),
      ("ELEVATION", s.elev),
      ("OBSERVATIONS",
        .obj (("date_time", .arr (s.times.map natNum))
          :: s.vars.map (fun kv => (kv.1, JVal.arr kv.2))))]
     ++ (match s.qcv with
         | some q => [("QC", .obj (q.map (fun kv => (kv.1, JVal.arr kv.2))))]
         | none => [])
     ++ [("SENSOR_VARIABLES", s.sensors)])

def TSIn.metaOf (s : TSIn) : MetaRow :=
  ⟨s.stid, optRat s.lon, optRat s.lat, optRat s.elev⟩

/-- Multi-index the record contributes. -/
def TSIn.mi (s : TSIn) : List Row := s.times.map (fun t => Row.mk s.stid t)

/-- Observation block of the record as a DataFrame. -/
def TSIn.df (s : TSIn) : DF := ⟨s.vars.map Prod.fst, buildRows s.mi s.vars⟩

/-- QC block of the record as a DataFrame (empty columns when absent). -/
def TSIn.qcDF (s : TSIn) : DF :=
  ⟨(s.qcv.getD []).map Prod.fst, buildRows s.mi (s.qcv.getD [])⟩

/-- Well-formedness: tolerated metadata fields, column arrays matching
the timestamp axis, and no variable shadowing the date_time key. -/
def TSIn.wf (s : TSIn) : Prop :=
  metaOk s.lon ∧ metaOk s.lat ∧ metaOk s.elev
    ∧ (∀ kv ∈ s.vars, kv.2.length = s.times.length)
    ∧ "date_time" ∉ s.vars.map Prod.fst
    ∧ (∀ kv ∈ s.qcv.getD [], kv.2.length = s.times.length)

instance TSIn.wf.decidable (s : TSIn) : Decidable s.wf := by
  unfold TSIn.wf; infer_instance

theorem metaFloat_of_metaOk (rec : JVal) (k : String) (v : JVal)
    (hget : jGet rec k = .ok v) (h : metaOk v) :
    metaFloat rec k = .ok (optRat v) := by
  unfold metaFloat optRat
  rw [hget]
  simp only [exceptBind_ok]
  unfold metaOk at h
  cases hp : pyFloat v with
  | ok q => simp
  | error e =>
    cases e <;> rw [hp] at h <;> simp_all

theorem toTime_natCast (t : Nat) : toTime (natNum t) = .ok t := by
  have h1 : ((t : Rat)).den = 1 := Rat.den_natCast t
  have h2 : ((t : Rat)).num = (t : Int) := Rat.num_natCast t
  simp [natNum, toTime, h1, h2]

theorem toTimeList_natCast (ts : List Nat) :
    toTimeList (.arr (ts.map natNum)) = .ok ts := by
  induction ts with
  | nil => rfl
  | cons t rest ih =>
    simp only [toTimeList, List.map_cons, List.mapM_cons, toTime_natCast, exceptBind_ok]
    simp only [toTimeList] at ih
    rw [ih]
    rfl

theorem dictErase_mapped_vars (dt : JVal) (vars : List (String × List JVal))
    (h : "date_time" ∉ vars.map Prod.fst) :
    dictErase (("date_time", dt) :: vars.map (fun kv => (kv.1, JVal.arr kv.2)))
        "date_time"
      = vars.map (fun kv => (kv.1, JVal.arr kv.2)) := by
  unfold dictErase
  rw [List.filter_cons_of_neg (by simp)]
  rw [List.filter_eq_self]
  intro kv hkv
  rcases List.mem_map.mp hkv with ⟨a, ha, rfl⟩
  simp only [ne_eq, decide_eq_true_eq]
  intro hEq
  exact h (List.mem_map.mpr ⟨a, ha, hEq⟩)

theorem mkDataFrame_mapped (vars : List (String × List JVal)) (idx : List Row)
    (h : ∀ kv ∈ vars, kv.2.length = idx.length) :
    mkDataFrame (vars.map (fun kv => (kv.1, JVal.arr kv.2))) idx
      = .ok ⟨vars.map Prod.fst, buildRows idx vars⟩ := by
  unfold mkDataFrame
  have hmap :
      (vars.map (fun kv => (kv.1, JVal.arr kv.2))).mapM
        (fun kv => do
          let xs ← colArray idx.length kv.2
          pure (kv.1, xs))
      = Except.ok vars := by
    induction vars with
    | nil => rfl
    | cons a rest ih =>
      simp only [List.map_cons, List.mapM_cons]
      have ha : colArray idx.length (JVal.arr a.2) = .ok a.2 := by
        simp [colArray, h a (List.mem_cons_self a rest)]
      rw [ha]
      simp only [exceptBind_ok]
      rw [ih (fun kv hkv => h kv (List.mem_cons_of_mem a hkv))]
      simp
  rw [hmap]
  simp [List.map_map, Function.comp]

theorem getStid_jrec (s : TSIn) : getStid s.jrec = .ok s.stid := rfl

theorem jGet_jrec_lon (s : TSIn) : jGet s.jrec "LONGITUDE" = .ok s.lon := rfl

theorem jGet_jrec_lat (s : TSIn) : jGet s.jrec "LATITUDE" = .ok s.lat := rfl

theorem jGet_jrec_elev (s : TSIn) : jGet s.jrec "ELEVATION" = .ok s.elev := rfl

theorem jGet_jrec_obs (s : TSIn) :
    jGet s.jrec "OBSERVATIONS"
      = .ok (.obj
          (("date_time", JVal.arr (s.times.map natNum))
            :: s.vars.map (fun kv => (kv.1, JVal.arr kv.2)))) := rfl

theorem mkQC_jrec (qcf : Bool) (s : TSIn)
    (hq : ∀ kv ∈ s.qcv.getD [], kv.2.length = s.times.length) :
    mkQC qcf s.jrec (s.times.map (fun t => Row.mk s.stid t))
      = .ok (if qcf then some s.qcDF else none) := by
  cases qcf with
  | false => rfl
  | true =>
    cases hqc : s.qcv with
    | none =>
      unfold mkQC
      simp only [TSIn.jrec, hqc]
      rw [show (dictGet?
          ([("STID", JVal.str s.stid), ("LONGITUDE", s.lon), ("LATITUDE", s.lat),
            ("ELEVATION", s.elev),
            ("OBSERVATIONS",
              JVal.obj (("date_time", JVal.arr (s.times.map natNum))
                :: s.vars.map (fun kv => (kv.1, JVal.arr kv.2))))]
           ++ [] ++ [("SENSOR_VARIABLES", s.sensors)]) "QC") = none from rfl]
      simp only [TSIn.qcDF, hqc, Option.getD_none]
      rfl
    | some q =>
      unfold mkQC
      simp only [TSIn.jrec, hqc]
      rw [show (dictGet?
          ([("STID", JVal.str s.stid), ("LONGITUDE", s.lon), ("LATITUDE", s.lat),
            ("ELEVATION", s.elev),
            ("OBSERVATIONS",
              JVal.obj (("date_time", JVal.arr (s.times.map natNum))
                :: s.vars.map (fun kv => (kv.1, JVal.arr kv.2))))]
           ++ [("QC", JVal.obj (q.map (fun kv => (kv.1, JVal.arr kv.2))))]
           ++ [("SENSOR_VARIABLES", s.sensors)]) "QC")
        = some (JVal.obj (q.map (fun kv => (kv.1, JVal.arr kv.2)))) from rfl]
      simp only [jObj, exceptPure_eq_ok, exceptBind_ok]
      rw [mkDataFrame_mapped q (s.times.map (fun t => Row.mk s.stid t))
        (by
          intro kv hkv
          rw [List.length_map]
          exact hq kv (by rw [hqc]; exact hkv))]
      simp only [TSIn.qcDF, hqc, Option.getD_some, exceptBind_ok, exceptPure_eq_ok]
      rfl

theorem perStation_jrec (qcf : Bool) (s : TSIn) (hwf : s.wf) :
    perStation "TimeSeries" qcf s.jrec
      = .ok (s.metaOf, s.df, if qcf then some s.qcDF else none) := by
  obtain ⟨hlon, hlat, helev, hvars, hdt, hq⟩ := hwf
  unfold perStation
  rw [getStid_jrec]
  simp only [exceptBind_ok]
  rw [metaFloat_of_metaOk _ _ _ (jGet_jrec_lon s) hlon]
  simp only [exceptBind_ok]
  rw [metaFloat_of_metaOk _ _ _ (jGet_jrec_lat s) hlat]
  simp only [exceptBind_ok]
  rw [metaFloat_of_metaOk _ _ _ (jGet_jrec_elev s) helev]
  simp only [exceptBind_ok]
  rw [jGet_jrec_obs]
  simp only [jObj, exceptBind_ok]
  rw [if_pos trivial]
  rw [show dictItem
      (("date_time", JVal.arr (s.times.map natNum))
        :: s.vars.map (fun kv => (kv.1, JVal.arr kv.2))) "date_time"
      = .ok (JVal.arr (s.times.map natNum)) from rfl]
  simp only [exceptBind_ok]
  rw [toTimeList_natCast]
  simp only [exceptBind_ok]
  rw [dictErase_mapped_vars _ _ hdt]
  rw [mkDataFrame_mapped s.vars (s.times.map (fun t => Row.mk s.stid t))
    (by intro kv hkv; rw [hvars kv hkv, List.length_map])]
  simp only [exceptBind_ok]
  rw [mkQC_jrec qcf s hq]
  simp only [exceptBind_ok, exceptPure_eq_ok]
  rfl

/-! Station-loop concatenation fold and its shape lemmas. -/

def foldDF (d : DF) (l : List DF) : DF := l.foldl DF.concat d

theorem buildRows_map_fst (idx : List Row) (cols : List (String × List JVal)) :
    (buildRows idx cols).map Prod.fst = idx := by
  induction idx generalizing cols with
  | nil => rfl
  | cons i is ih => simp [buildRows, ih]

theorem DF.concat_rows_fst (a b : DF) :
    (a.concat b).rows.map Prod.fst = a.rows.map Prod.fst ++ b.rows.map Prod.fst := by
  simp only [DF.concat, List.map_append, List.map_map]
  rfl

theorem DF.concat_cols_nil (a b : DF) :
    (a.concat b).cols = [] ↔ a.cols = [] ∧ b.cols = [] := by
  constructor
  · intro h
    simp only [DF.concat, List.append_eq_nil] at h
    obtain ⟨h1, h2⟩ := h
    refine ⟨h1, ?_⟩
    rw [h1] at h2
    simpa using h2
  · rintro ⟨h1, h2⟩
    simp [DF.concat, h1, h2]

theorem foldDF_cons (d b : DF) (l : List DF) :
    foldDF d (b :: l) = foldDF (d.concat b) l := rfl

theorem foldDF_rows_fst (l : List DF) (d : DF) :
    (foldDF d l).rows.map Prod.fst
      = d.rows.map Prod.fst ++ (l.map (fun x => x.rows.map Prod.fst)).flatten := by
  induction l generalizing d with
  | nil => simp [foldDF]
  | cons b rest ih =>
    rw [foldDF_cons, ih, DF.concat_rows_fst]
    simp [List.append_assoc]

theorem foldDF_cols_nil (l : List DF) (d : DF) :
    (foldDF d l).cols = [] ↔ d.cols = [] ∧ ∀ x ∈ l, x.cols = [] := by
  induction l generalizing d with
  | nil => simp [foldDF]
  | cons b rest ih =>
    rw [foldDF_cons, ih, DF.concat_cols_nil]
    constructor
    · rintro ⟨⟨h1, h2⟩, h3⟩
      refine ⟨h1, ?_⟩
      intro x hx
      rcases List.mem_cons.mp hx with rfl | hx
      · exact h2
      · exact h3 x hx
    · rintro ⟨h1, h2⟩
      exact ⟨⟨h1, h2 b (List.mem_cons_self b rest)⟩,
             fun x hx => h2 x (List.mem_cons_of_mem b hx)⟩

theorem stnLoop_family (qcf : Bool) (ss : List TSIn) (hwf : ∀ s ∈ ss, s.wf)
    (acc : List MetaRow × DF × DF) :
    stnLoop "TimeSeries" qcf acc (ss.map TSIn.jrec)
      = .ok (acc.1 ++ ss.map TSIn.metaOf,
             foldDF acc.2.1 (ss.map TSIn.df),
             if qcf then foldDF acc.2.2 (ss.map TSIn.qcDF) else acc.2.2) := by
  induction ss generalizing acc with
  | nil => cases qcf <;> simp [stnLoop, foldDF]
  | cons s rest ih =>
    simp only [List.map_cons, stnLoop]
    rw [perStation_jrec qcf s (hwf s (List.mem_cons_self s rest))]
    simp only [exceptBind_ok]
    cases qcf with
    | false =>
      simp only [Bool.false_eq_true, if_false]
      rw [ih (fun x hx => hwf x (List.mem_cons_of_mem s hx))]
      simp [foldDF_cons]
    | true =>
      simp only [if_true]
      rw [ih (fun x hx => hwf x (List.mem_cons_of_mem s hx))]
      simp [foldDF_cons]

theorem return_stn_df_family (fmt : JVal) (qcf : Bool) (s0 : TSIn) (rest : List TSIn)
    (hwf : ∀ s ∈ s0 :: rest, s.wf) :
    return_stn_df ((s0 :: rest).map TSIn.jrec) fmt qcf "TimeSeries"
      = .ok ((foldDF s0.df (rest.map TSIn.df)).sortIndex,
             (s0 :: rest).map TSIn.metaOf,
             if qcf then foldDF s0.qcDF (rest.map TSIn.qcDF) else DF.empty) := by
  unfold return_stn_df
  simp only [List.map_cons]
  rw [perStation_jrec qcf s0 (hwf s0 (List.mem_cons_self s0 rest))]
  simp only [exceptBind_ok]
  cases qcf with
  | false =>
    simp only [Bool.false_eq_true, if_false]
    rw [stnLoop_family false rest (fun x hx => hwf x (List.mem_cons_of_mem s0 hx))
      ([s0.metaOf], s0.df, DF.empty)]
    simp
  | true =>
    simp only [if_true]
    rw [stnLoop_family true rest (fun x hx => hwf x (List.mem_cons_of_mem s0 hx))
      ([s0.metaOf], s0.df, s0.qcDF)]
    simp

theorem const_map_toFinset (c : String) :
    ∀ ts : List Nat, ts ≠ [] → (ts.map (fun _ => c)).toFinset = {c}
  | [], h => absurd rfl h
  | [_], _ => by simp
  | t :: t' :: ts, _ => by
    rw [List.map_cons, List.toFinset_cons, const_map_toFinset c (t' :: ts) (by simp)]
    simp

theorem mi_stid_toFinset (s : TSIn) (h : s.times ≠ []) :
    (s.mi.map Row.stid).toFinset = {s.stid} := by
  unfold TSIn.mi
  rw [List.map_map]
  have : (Row.stid ∘ fun t => Row.mk s.stid t) = fun _ => s.stid := rfl
  rw [this]
  exact const_map_toFinset s.stid s.times h

theorem mi_flatten_stid_toFinset (ss : List TSIn)
    (hne : ∀ s ∈ ss, s.times ≠ []) :
    ((((ss.map TSIn.mi).flatten)).map Row.stid).toFinset
      = (ss.map TSIn.stid).toFinset := by
  induction ss with
  | nil => simp
  | cons s rest ih =>
    simp only [List.map_cons, List.flatten_cons, List.map_append, List.toFinset_append]
    rw [ih (fun x hx => hne x (List.mem_cons_of_mem s hx))]
    rw [mi_stid_toFinset s (hne s (List.mem_cons_self s rest))]
    rw [List.toFinset_cons]
    exact (Finset.insert_eq _ _).symm

/-- C8: for every well-shaped TimeSeries response with a nonempty list
of station records with pairwise distinct identifiers, each carrying a
nonempty shared timestamp axis, the produced observation table has
exactly as many distinct station keys as station records, its row count
is the sum of the per-station observation counts, and within every
station its rows are sorted ascending by timestamp. -/
theorem ts_observation_table_shape (fmt : JVal) (qcf : Bool)
    (s0 : TSIn) (rest : List TSIn)
    (hwf : ∀ s ∈ s0 :: rest, s.wf)
    (hnd : ((s0 :: rest).map TSIn.stid).Nodup)
    (hne : ∀ s ∈ s0 :: rest, s.times ≠ []) :
    ∃ df metas qdf,
      return_stn_df ((s0 :: rest).map TSIn.jrec) fmt qcf "TimeSeries"
        = .ok (df, metas, qdf)
      ∧ ((df.rows.map (fun r => r.1.stid)).toFinset).card = (s0 :: rest).length
      ∧ df.rows.length = ((s0 :: rest).map (fun s => s.times.length)).sum
      ∧ ∀ st : String,
          List.Sorted (· ≤ ·)
            (((df.rows.map Prod.fst).filter (fun r => r.stid = st)).map Row.dattim) := by
  have hkeys : (foldDF s0.df (rest.map TSIn.df)).rows.map Prod.fst
      = ((s0 :: rest).map TSIn.mi).flatten := by
    rw [foldDF_rows_fst, List.map_cons, List.flatten_cons]
    congr 1
    · simp [TSIn.df, buildRows_map_fst]
    · congr 1
      rw [List.map_map]
      exact List.map_congr_left
        (fun x _ => by simp [Function.comp, TSIn.df, buildRows_map_fst])
  have hperm : List.Perm
      ((foldDF s0.df (rest.map TSIn.df)).sortIndex).rows
      (foldDF s0.df (rest.map TSIn.df)).rows :=
    List.perm_insertionSort keyLe _
  refine ⟨_, _, _, return_stn_df_family fmt qcf s0 rest hwf, ?_, ?_, ?_⟩
  · -- distinct station keys
    have hmm : (((foldDF s0.df (rest.map TSIn.df)).sortIndex).rows.map
          (fun r => r.1.stid)).toFinset
        = ((((foldDF s0.df (rest.map TSIn.df)).sortIndex).rows.map Prod.fst).map
            Row.stid).toFinset := by
      rw [List.map_map]
      rfl
    rw [hmm, List.toFinset_eq_of_perm _ _ (hperm.map Prod.fst |>.map Row.stid),
      hkeys, mi_flatten_stid_toFinset (s0 :: rest) hne,
      List.toFinset_card_of_nodup hnd, List.length_map]
  · -- row count
    rw [hperm.length_eq]
    have hlen : (foldDF s0.df (rest.map TSIn.df)).rows.length
        = ((foldDF s0.df (rest.map TSIn.df)).rows.map Prod.fst).length := by
      rw [List.length_map]
    rw [hlen, hkeys, List.length_flatten]
    congr 1
    rw [List.map_map]
    exact List.map_congr_left
      (fun x _ => by simp [Function.comp, TSIn.mi])
  · -- sortedness within a station
    intro st
    have hsort : List.Pairwise keyLe
        ((foldDF s0.df (rest.map TSIn.df)).sortIndex).rows :=
      List.sorted_insertionSort keyLe _
    have h1 : List.Pairwise rowLe
        (((foldDF s0.df (rest.map TSIn.df)).sortIndex).rows.map Prod.fst) :=
      List.pairwise_map.mpr hsort
    have h2 := h1.filter (fun r => decide (r.stid = st))
    have h3 : List.Pairwise (fun a b : Row => a.dattim ≤ b.dattim)
        ((((foldDF s0.df (rest.map TSIn.df)).sortIndex).rows.map Prod.fst).filter
          (fun r => decide (r.stid = st))) := by
      refine h2.imp_of_mem ?_
      intro a b ha hb hr
      have hast : a.stid = st := of_decide_eq_true (List.mem_filter.mp ha).2
      have hbst : b.stid = st := of_decide_eq_true (List.mem_filter.mp hb).2
      rcases hr with hlt | hconj
      · rw [hast, hbst] at hlt
        exact absurd hlt (lt_irrefl st)
      · exact hconj.2
    exact List.pairwise_map.mpr h3

/-- Witness for C8 at a concrete input: two stations with one and two
observations, quality control requested. -/
theorem ts_observation_table_shape_witness :
    ∃ df metas qdf,
      return_stn_df
          (([⟨"ABCD", JVal.num 5, JVal.num 6, JVal.null, [2],
              [("air_temp_set_1", [JVal.num 30])], none, JVal.obj []⟩,
             ⟨"KSLC", JVal.null, JVal.null, JVal.num 4226, [1, 3],
              [("air_temp_set_1", [JVal.num 20, JVal.num 21])],
              some [("air_temp_set_1", [JVal.arr [JVal.num 1], JVal.arr []])],
              JVal.obj []⟩] : List TSIn).map TSIn.jrec)
          (JVal.str "%Y-%m-%d %H:%M") true "TimeSeries"
        = .ok (df, metas, qdf)
      ∧ ((df.rows.map (fun r => r.1.stid)).toFinset).card = 2
      ∧ df.rows.length = 3
      ∧ ∀ st : String,
          List.Sorted (· ≤ ·)
            (((df.rows.map Prod.fst).filter (fun r => r.stid = st)).map Row.dattim) := by
  have h := ts_observation_table_shape (JVal.str "%Y-%m-%d %H:%M") true
    ⟨"ABCD", JVal.num 5, JVal.num 6, JVal.null, [2],
      [("air_temp_set_1", [JVal.num 30])], none, JVal.obj []⟩
    [⟨"KSLC", JVal.null, JVal.null, JVal.num 4226, [1, 3],
      [("air_temp_set_1", [JVal.num 20, JVal.num 21])],
      some [("air_temp_set_1", [JVal.arr [JVal.num 1], JVal.arr []])],
      JVal.obj []⟩]
    (by decide) (by decide) (by decide)
  simpa using h

/-! C5: tolerance of the three optional metadata fields. -/

/-- C5 counterexample: a TimeSeries station record MISSING the
LONGITUDE field entirely aborts the whole normalization with a KeyError
instead of substituting a null — only a present field of non-numeric
TYPE is tolerated. -/
theorem missing_meta_field_aborts_counterexample :
    return_stn_df
        [.obj [("STID", JVal.str "KSLC"), ("LATITUDE", JVal.null),
               ("ELEVATION", JVal.null),
               ("OBSERVATIONS", .obj [("date_time", JVal.arr [])])]]
        (JVal.str "%Y-%m-%d %H:%M") false "TimeSeries"
      = .error (.keyError "LONGITUDE") := rfl

/-- C5 amended: the normalizer substitutes a null for a
longitude/latitude/elevation field exactly when the field is PRESENT
and float conversion raises TypeError (for example a JSON null); a
missing field propagates its KeyError and an unparsable string its
ValueError, aborting the request.  With every metadata field in the
tolerated class, the whole request is still processed and the metadata
table carries the null substitutions. -/
theorem meta_field_null_tolerance :
    optRat JVal.null = none
    ∧ (∀ rec k v, jGet rec k = .ok v → pyFloat v = .error .typeError →
        metaFloat rec k = .ok none)
    ∧ (∀ rec k e, jGet rec k = .error e → metaFloat rec k = .error e)
    ∧ (∀ rec k v, jGet rec k = .ok v → pyFloat v = .error .valueError →
        metaFloat rec k = .error .valueError)
    ∧ (∀ (fmt : JVal) (qcf : Bool) (s0 : TSIn) (rest : List TSIn),
        (∀ s ∈ s0 :: rest, s.wf) →
        ∃ df qdf,
          return_stn_df ((s0 :: rest).map TSIn.jrec) fmt qcf "TimeSeries"
            = .ok (df, (s0 :: rest).map TSIn.metaOf, qdf)) := by
  refine ⟨rfl, ?_, ?_, ?_, ?_⟩
  · intro rec k v hget hp
    unfold metaFloat
    rw [hget]
    simp only [exceptBind_ok]
    rw [hp]
  · intro rec k e hget
    unfold metaFloat
    rw [hget]
    simp
  · intro rec k v hget hp
    unfold metaFloat
    rw [hget]
    simp only [exceptBind_ok]
    rw [hp]
  · intro fmt qcf s0 rest hwf
    exact ⟨_, _, return_stn_df_family fmt qcf s0 rest hwf⟩

/-- Witness for C5 at concrete inputs: a null longitude is tolerated as
none, a missing longitude raises KeyError, an unparsable longitude
string raises ValueError, and a one-station request with a null
longitude still produces all tables. -/
theorem meta_field_null_tolerance_witness :
    metaFloat (.obj [("LONGITUDE", JVal.null)]) "LONGITUDE" = .ok none
    ∧ metaFloat (.obj []) "LONGITUDE" = .error (.keyError "LONGITUDE")
    ∧ metaFloat (.obj [("LONGITUDE", JVal.str "abc")]) "LONGITUDE"
        = .error .valueError
    ∧ ∃ df qdf,
        return_stn_df
            (([⟨"KSLC", JVal.null, JVal.num 1, JVal.num 2, [1], [], none,
               JVal.obj []⟩] : List TSIn).map TSIn.jrec)
            (JVal.str "%Y-%m-%d %H:%M") false "TimeSeries"
          = .ok (df, [⟨"KSLC", none, some 1, some 2⟩], qdf) := by
  refine ⟨?_, ?_, ?_, ?_⟩
  · exact meta_field_null_tolerance.2.1 _ _ _ rfl rfl
  · exact meta_field_null_tolerance.2.2.1 _ _ _ rfl
  · exact meta_field_null_tolerance.2.2.2.1 _ _ _ rfl rfl
  · have h := meta_field_null_tolerance.2.2.2.2 (JVal.str "%Y-%m-%d %H:%M") false
      ⟨"KSLC", JVal.null, JVal.num 1, JVal.num 2, [1], [], none, JVal.obj []⟩
      [] (by decide)
    simpa [TSIn.metaOf, optRat, pyFloat] using h

/-! Latest and NearestTime station records: each variable carries its
own value/date_time pair, the first variable's timestamp labels the
station's single row, and the block is flattened to the scalar values. -/

/-- Non-array JSON value: pandas broadcasts it along the index instead
of requiring a length match. -/
def isScalar : JVal → Bool
  | .arr _ => false
  | _ => true

structure LNIn where
  stid : String
  lon : JVal
  lat : JVal
  elev : JVal
  t : Nat
  vars : List (String × JVal)
  qcv : Option (List (String × List JVal))
  sensors : JVal

/-- Station record of the response, in the shape the Latest/NearestTime
branch of return_stn_df walks. -/
def LNIn.jrec (s : LNIn) : JVal :=
  .obj
    ([("STID", .str s.stid), ("LONGITUDE", s.lon), ("LATITUDE", s.lat),
      ("ELEVATION", s.elev),
      ("OBSERVATIONS",
        .obj (s.vars.map (fun kv =>
          (kv.1, JVal.obj [("value", kv.2), ("date_time", natNum s.t)]))))]
     ++ (match s.qcv with
         | some q => [("QC", .obj (q.map (fun kv => (kv.1, JVal.arr kv.2))))]
         | none => [])
     ++ [("SENSOR_VARIABLES", s.sensors)])

def LNIn.metaOf (s : LNIn) : MetaRow :=
  ⟨s.stid, optRat s.lon, optRat s.lat, optRat s.elev⟩

/-- The single multi-index row the record contributes. -/
def LNIn.mi (s : LNIn) : List Row := [Row.mk s.stid s.t]

/-- Observation block of the record as a one-row DataFrame. -/
def LNIn.df (s : LNIn) : DF :=
  ⟨s.vars.map Prod.fst, buildRows s.mi (s.vars.map (fun kv => (kv.1, [kv.2])))⟩

/-- QC block of the record as a DataFrame (empty columns when absent). -/
def LNIn.qcDF (s : LNIn) : DF :=
  ⟨(s.qcv.getD []).map Prod.fst, buildRows s.mi (s.qcv.getD [])⟩

/-- Well-formedness: tolerated metadata fields, at least one variable
(the source reads the first variable's timestamp), scalar values, and
QC arrays matching the one-row index. -/
def LNIn.wf (s : LNIn) : Prop :=
  metaOk s.lon ∧ metaOk s.lat ∧ metaOk s.elev
    ∧ s.vars ≠ []
    ∧ (∀ kv ∈ s.vars, isScalar kv.2)
    ∧ (∀ kv ∈ s.qcv.getD [], kv.2.length = 1)

theorem lnFlat (t : Nat) (vars : List (String × JVal)) :
    (vars.map (fun kv =>
        (kv.1, JVal.obj [("value", kv.2), ("date_time", natNum t)]))).mapM
      (fun kv => do
        let x ← jGet kv.2 "value"
        pure (kv.1, x))
    = .ok vars := by
  induction vars with
  | nil => rfl
  | cons a rest ih =>
    simp only [List.map_cons, List.mapM_cons]
    rw [show jGet (JVal.obj [("value", a.2), ("date_time", natNum t)]) "value"
        = .ok a.2 from rfl]
    simp only [exceptBind_ok]
    rw [ih]
    rfl

theorem mkDataFrame_scalar_row (vars : List (String × JVal)) (i : Row)
    (h : ∀ kv ∈ vars, isScalar kv.2) :
    mkDataFrame vars [i]
      = .ok ⟨vars.map Prod.fst,
             buildRows [i] (vars.map (fun kv => (kv.1, [kv.2])))⟩ := by
  unfold mkDataFrame
  have hmap : vars.mapM (fun kv => do
        let xs ← colArray ([i] : List Row).length kv.2
        pure (kv.1, xs))
      = .ok (vars.map (fun kv => (kv.1, [kv.2]))) := by
    induction vars with
    | nil => rfl
    | cons a rest ih =>
      simp only [List.mapM_cons]
      have hs := h a (List.mem_cons_self a rest)
      have ha : colArray ([i] : List Row).length a.2 = .ok [a.2] := by
        cases hv : a.2 with
        | arr xs =>
          rw [hv] at hs
          simp [isScalar] at hs
        | null => rfl
        | bool b => rfl
        | num q => rfl
        | str s => rfl
        | obj o => rfl
      rw [ha]
      simp only [exceptBind_ok]
      rw [ih (fun kv hkv => h kv (List.mem_cons_of_mem a hkv))]
      rfl
  rw [hmap]
  rfl

theorem getStid_ln_jrec (s : LNIn) : getStid s.jrec = .ok s.stid := rfl

theorem jGet_ln_lon (s : LNIn) : jGet s.jrec "LONGITUDE" = .ok s.lon := rfl

theorem jGet_ln_lat (s : LNIn) : jGet s.jrec "LATITUDE" = .ok s.lat := rfl

theorem jGet_ln_elev (s : LNIn) : jGet s.jrec "ELEVATION" = .ok s.elev := rfl

theorem jGet_ln_obs (s : LNIn) :
    jGet s.jrec "OBSERVATIONS"
      = .ok (.obj (s.vars.map (fun kv =>
          (kv.1, JVal.obj [("value", kv.2), ("date_time", natNum s.t)])))) := rfl

theorem mkQC_ln_jrec (qcf : Bool) (s : LNIn)
    (hq : ∀ kv ∈ s.qcv.getD [], kv.2.length = 1) :
    mkQC qcf s.jrec [Row.mk s.stid s.t]
      = .ok (if qcf then some s.qcDF else none) := by
  cases qcf with
  | false => rfl
  | true =>
    cases hqc : s.qcv with
    | none =>
      unfold mkQC
      simp only [LNIn.jrec, hqc]
      rw [show (dictGet?
          ([("STID", JVal.str s.stid), ("LONGITUDE", s.lon), ("LATITUDE", s.lat),
            ("ELEVATION", s.elev),
            ("OBSERVATIONS",
              JVal.obj (s.vars.map (fun kv =>
                (kv.1, JVal.obj [("value", kv.2), ("date_time", natNum s.t)]))))]
           ++ [] ++ [("SENSOR_VARIABLES", s.sensors)]) "QC") = none from rfl]
      simp only [LNIn.qcDF, LNIn.mi, hqc, Option.getD_none]
      rfl
    | some q =>
      unfold mkQC
      simp only [LNIn.jrec, hqc]
      rw [show (dictGet?
          ([("STID", JVal.str s.stid), ("LONGITUDE", s.lon), ("LATITUDE", s.lat),
            ("ELEVATION", s.elev),
            ("OBSERVATIONS",
              JVal.obj (s.vars.map (fun kv =>
                (kv.1, JVal.obj [("value", kv.2), ("date_time", natNum s.t)]))))]
           ++ [("QC", JVal.obj (q.map (fun kv => (kv.1, JVal.arr kv.2))))]
           ++ [("SENSOR_VARIABLES", s.sensors)]) "QC")
        = some (JVal.obj (q.map (fun kv => (kv.1, JVal.arr kv.2)))) from rfl]
      simp only [jObj, exceptPure_eq_ok, exceptBind_ok]
      rw [mkDataFrame_mapped q [Row.mk s.stid s.t]
        (by
          intro kv hkv
          rw [hq kv (by rw [hqc]; exact hkv)]
          rfl)]
      simp only [LNIn.qcDF, LNIn.mi, hqc, Option.getD_some, exceptBind_ok,
        exceptPure_eq_ok]
      rfl

theorem perStation_ln_jrec (service : String) (hsvc : service ≠ "TimeSeries")
    (qcf : Bool) (s : LNIn) (hwf : s.wf) :
    perStation service qcf s.jrec
      = .ok (s.metaOf, s.df, if qcf then some s.qcDF else none) := by
  obtain ⟨hlon, hlat, helev, hne, hsc, hq⟩ := hwf
  unfold perStation
  rw [getStid_ln_jrec]
  simp only [exceptBind_ok]
  rw [metaFloat_of_metaOk _ _ _ (jGet_ln_lon s) hlon]
  simp only [exceptBind_ok]
  rw [metaFloat_of_metaOk _ _ _ (jGet_ln_lat s) hlat]
  simp only [exceptBind_ok]
  rw [metaFloat_of_metaOk _ _ _ (jGet_ln_elev s) helev]
  simp only [exceptBind_ok]
  rw [jGet_ln_obs]
  simp only [jObj, exceptBind_ok]
  rw [if_neg hsvc]
  cases hv : s.vars with
  | nil => exact absurd hv hne
  | cons v0 vs =>
    simp only [hv, List.map_cons]
    simp only [exceptBind_ok, exceptPure_eq_ok]
    rw [show jGet (JVal.obj [("value", v0.2), ("date_time", natNum s.t)]) "date_time"
        = .ok (natNum s.t) from rfl]
    simp only [exceptBind_ok]
    rw [toTime_natCast]
    simp only [exceptBind_ok]
    have hfl := lnFlat s.t (v0 :: vs)
    rw [List.map_cons] at hfl
    simp only [exceptPure_eq_ok] at hfl
    rw [hfl]
    simp only [exceptBind_ok]
    rw [mkDataFrame_scalar_row (v0 :: vs) (Row.mk s.stid s.t)
      (by rw [← hv]; exact hsc)]
    simp only [exceptBind_ok]
    rw [mkQC_ln_jrec qcf s hq]
    simp only [exceptBind_ok, exceptPure_eq_ok]
    simp only [LNIn.metaOf, LNIn.df, LNIn.mi, hv, List.map_cons]

/-! Unified non-Precip station record: the station path folds either
shape through the same loop, QC handling included. -/

inductive StIn where
  | ts (s : TSIn) : StIn
  | ln (s : LNIn) : StIn

def StIn.jrec : StIn → JVal
  | .ts s => s.jrec
  | .ln s => s.jrec

def StIn.metaOf : StIn → MetaRow
  | .ts s => s.metaOf
  | .ln s => s.metaOf

def StIn.mi : StIn → List Row
  | .ts s => s.mi
  | .ln s => s.mi

def StIn.df : StIn → DF
  | .ts s => s.df
  | .ln s => s.df

def StIn.qcDF : StIn → DF
  | .ts s => s.qcDF
  | .ln s => s.qcDF

def StIn.qcv : StIn → Option (List (String × List JVal))
  | .ts s => s.qcv
  | .ln s => s.qcv

/-- Shape discipline tying the record to the requested service: the
TimeSeries branch walks TimeSeries-shaped records, every other
station-path service (Latest, NearestTime) the per-variable shape. -/
def StIn.wfFor (service : String) : StIn → Prop
  | .ts s => service = "TimeSeries" ∧ s.wf
  | .ln s => service ≠ "TimeSeries" ∧ s.wf

theorem perStation_st (service : String) (qcf : Bool) (st : StIn)
    (hwf : st.wfFor service) :
    perStation service qcf st.jrec
      = .ok (st.metaOf, st.df, if qcf then some st.qcDF else none) := by
  cases st with
  | ts s =>
    obtain ⟨hsvc, hw⟩ := hwf
    subst hsvc
    simpa only [StIn.jrec, StIn.metaOf, StIn.df, StIn.qcDF]
      using perStation_jrec qcf s hw
  | ln s =>
    obtain ⟨hsvc, hw⟩ := hwf
    simpa only [StIn.jrec, StIn.metaOf, StIn.df, StIn.qcDF]
      using perStation_ln_jrec service hsvc qcf s hw

theorem stnLoop_st_family (service : String) (qcf : Bool) (ss : List StIn)
    (hwf : ∀ st ∈ ss, st.wfFor service) (acc : List MetaRow × DF × DF) :
    stnLoop service qcf acc (ss.map StIn.jrec)
      = .ok (acc.1 ++ ss.map StIn.metaOf,
             foldDF acc.2.1 (ss.map StIn.df),
             if qcf then foldDF acc.2.2 (ss.map StIn.qcDF) else acc.2.2) := by
  induction ss generalizing acc with
  | nil => cases qcf <;> simp [stnLoop, foldDF]
  | cons s rest ih =>
    simp only [List.map_cons, stnLoop]
    rw [perStation_st service qcf s (hwf s (List.mem_cons_self s rest))]
    simp only [exceptBind_ok]
    cases qcf with
    | false =>
      simp only [Bool.false_eq_true, if_false]
      rw [ih (fun x hx => hwf x (List.mem_cons_of_mem s hx))]
      simp [foldDF_cons]
    | true =>
      simp only [if_true]
      rw [ih (fun x hx => hwf x (List.mem_cons_of_mem s hx))]
      simp [foldDF_cons]

theorem return_stn_df_st_family (service : String) (fmt : JVal) (qcf : Bool)
    (s0 : StIn) (rest : List StIn) (hwf : ∀ st ∈ s0 :: rest, st.wfFor service) :
    return_stn_df ((s0 :: rest).map StIn.jrec) fmt qcf service
      = .ok ((foldDF s0.df (rest.map StIn.df)).sortIndex,
             (s0 :: rest).map StIn.metaOf,
             if qcf then foldDF s0.qcDF (rest.map StIn.qcDF) else DF.empty) := by
  unfold return_stn_df
  simp only [List.map_cons]
  rw [perStation_st service qcf s0 (hwf s0 (List.mem_cons_self s0 rest))]
  simp only [exceptBind_ok]
  cases qcf with
  | false =>
    simp only [Bool.false_eq_true, if_false]
    rw [stnLoop_st_family service false rest
      (fun x hx => hwf x (List.mem_cons_of_mem s0 hx)) ([s0.metaOf], s0.df, DF.empty)]
    simp
  | true =>
    simp only [if_true]
    rw [stnLoop_st_family service true rest
      (fun x hx => hwf x (List.mem_cons_of_mem s0 hx)) ([s0.metaOf], s0.df, s0.qcDF)]
    simp

theorem st_df_rows_fst (st : StIn) : st.df.rows.map Prod.fst = st.mi := by
  cases st with
  | ts s => simp [StIn.df, StIn.mi, TSIn.df, buildRows_map_fst]
  | ln s => simp [StIn.df, StIn.mi, LNIn.df, buildRows_map_fst]

theorem st_qcdf_rows_fst (st : StIn) : st.qcDF.rows.map Prod.fst = st.mi := by
  cases st with
  | ts s => simp [StIn.qcDF, StIn.mi, TSIn.qcDF, buildRows_map_fst]
  | ln s => simp [StIn.qcDF, StIn.mi, LNIn.qcDF, buildRows_map_fst]

theorem st_qcdf_cols (st : StIn) :
    st.qcDF.cols = (st.qcv.getD []).map Prod.fst := by
  cases st <;> rfl

/-! C6: quality-control table versus explicit absence. -/

/-- Successful station-path response document over a record list. -/
def mkStResp (recs : List JVal) (units : PyDict) : JVal :=
  .obj [("SUMMARY",
          .obj [("RESPONSE_CODE", JVal.num 1), ("RESPONSE_MESSAGE", JVal.str "OK")]),
        ("UNITS", .obj units),
        ("STATION", .arr recs)]

theorem foldDF_qcdf_keys (s0 : StIn) (rest : List StIn) :
    (foldDF s0.qcDF (rest.map StIn.qcDF)).rows.map Prod.fst
      = ((s0 :: rest).map StIn.mi).flatten := by
  rw [foldDF_rows_fst, List.map_cons, List.flatten_cons, st_qcdf_rows_fst]
  congr 1
  congr 1
  rw [List.map_map]
  exact List.map_congr_left (fun x _ => st_qcdf_rows_fst x)

theorem foldDF_df_keys (s0 : StIn) (rest : List StIn) :
    (foldDF s0.df (rest.map StIn.df)).rows.map Prod.fst
      = ((s0 :: rest).map StIn.mi).flatten := by
  rw [foldDF_rows_fst, List.map_cons, List.flatten_cons, st_df_rows_fst]
  congr 1
  congr 1
  rw [List.map_map]
  exact List.map_congr_left (fun x _ => st_df_rows_fst x)

/-- C6 counterexample: with options setting qc to on and qc_flag to off,
quality-control flags count as requested under the claim's trigger, and
the response carries a QC column — yet request_data returns no QC
result at all (the three-element result), neither a table nor an
explicit none. -/
theorem qc_flag_override_counterexample :
    ∃ (out : Output) (sd' : SynopticData),
      request_data
        ⟨"t", "TimeSeries", serviceUrl "TimeSeries", [("stid", JVal.str "KSLC")], [],
          [("qc", JVal.str "on"), ("qc_flag", JVal.str "off")]⟩
        (.obj [("SUMMARY",
                 .obj [("RESPONSE_CODE", JVal.num 1), ("RESPONSE_MESSAGE", JVal.str "OK")]),
               ("UNITS", .obj []),
               ("STATION", .arr [.obj
                 [("STID", JVal.str "KSLC"), ("LONGITUDE", JVal.null),
                  ("LATITUDE", JVal.null), ("ELEVATION", JVal.null),
                  ("OBSERVATIONS",
                    .obj [("date_time", JVal.arr [JVal.num 1]),
                          ("air_temp_set_1", JVal.arr [JVal.num 20])]),
                  ("QC", .obj [("air_temp_set_1", JVal.arr [JVal.arr [JVal.num 1]])]),
                  ("SENSOR_VARIABLES", .obj [])]])])
        = .ok (out, sd')
      ∧ out.qc_df = none :=
  ⟨_, _, rfl, rfl⟩

/-- C6 amended: for every non-Precip request (TimeSeries, Latest or
NearestTime shaped) whose effective quality-control flag is on (qc_flag
set to on, or qc set to on and qc_flag not set to off), if every
station of the response carries no QC columns the returned QC slot is
the explicit none, and if any station carries a QC column a QC table is
returned whose multi-index entries are exactly those of the observation
table (as a permutation; the observation table alone is re-sorted).  On
the Precip path with the effective flag on the source instead reads the
never-assigned qc_df variable, aborting with UnboundLocalError, and
with qc set to on but qc_flag set to off no QC slot is returned at
all. -/
theorem qc_absent_vs_table :
    (∀ (sd sd₂ : SynopticData) (s0 : StIn) (rest : List StIn)
       (units vd1 vd2 : PyDict),
       inject_precip sd = .ok sd₂ →
       sd₂.service ≠ "Precip" →
       qcFlag sd₂.opt_params = true →
       (∀ st ∈ s0 :: rest, st.wfFor sd₂.service) →
       variable_details ((s0 :: rest).map StIn.jrec) = .ok (vd1, vd2) →
       ∃ out, request_data sd (mkStResp ((s0 :: rest).map StIn.jrec) units)
           = .ok (out, sd₂)
         ∧ ∃ df, out.data_df = TableOut.stn df
           ∧ ((∀ st ∈ s0 :: rest, st.qcv.getD [] = []) → out.qc_df = some none)
           ∧ ((∃ st ∈ s0 :: rest, st.qcv.getD [] ≠ []) →
               ∃ qdf, out.qc_df = some (some qdf)
                 ∧ List.Perm (qdf.rows.map Prod.fst) (df.rows.map Prod.fst)))
    ∧ (∀ (sd sd₂ : SynopticData) (resp summary code : JVal)
       (stations : List JVal) (pm : PrecipDF × List MetaRow) (units : PyDict),
       inject_precip sd = .ok sd₂ →
       sd₂.service = "Precip" →
       qcFlag sd₂.opt_params = true →
       jGet resp "SUMMARY" = .ok summary →
       jGet summary "RESPONSE_CODE" = .ok code →
       jEqOne code = true →
       jGet resp "STATION" = .ok (.arr stations) →
       return_precip_df stations (timeFormatOf sd₂.opt_params)
           (pmodeFlag sd₂.opt_params) = .ok pm →
       jGet resp "UNITS" = .ok (.obj units) →
       request_data sd resp = .error .nameError) := by
  constructor
  · intro sd sd₂ s0 rest units vd1 vd2 hinj hsvcP hqc hwf hvd
    have hbt : buildTables sd₂ (mkStResp ((s0 :: rest).map StIn.jrec) units)
        = .ok ⟨TableOut.stn ((foldDF s0.df (rest.map StIn.df)).sortIndex),
               build_units_dic units
                 ((foldDF s0.df (rest.map StIn.df)).sortIndex).cols,
               (s0 :: rest).map StIn.metaOf,
               some (if (foldDF s0.qcDF (rest.map StIn.qcDF)).cols.isEmpty then none
                     else some (foldDF s0.qcDF (rest.map StIn.qcDF)))⟩ := by
      unfold buildTables
      rw [hqc]
      rw [show jGet (mkStResp ((s0 :: rest).map StIn.jrec) units) "STATION"
          = .ok (.arr ((s0 :: rest).map StIn.jrec)) from rfl]
      simp only [jArr, exceptBind_ok]
      rw [if_pos hsvcP]
      rw [return_stn_df_st_family sd₂.service (timeFormatOf sd₂.opt_params)
        true s0 rest hwf]
      simp only [exceptBind_ok]
      rw [hvd]
      simp only [exceptBind_ok]
      rw [show jGet (mkStResp ((s0 :: rest).map StIn.jrec) units) "UNITS"
          = .ok (.obj units) from rfl]
      simp only [jObj, exceptBind_ok, if_true]
      rfl
    have hreq : request_data sd (mkStResp ((s0 :: rest).map StIn.jrec) units)
        = (buildTables sd₂ (mkStResp ((s0 :: rest).map StIn.jrec) units)).map
            (fun out => (out, sd₂)) := by
      unfold request_data
      rw [hinj]
      simp only [exceptBind_ok]
      rw [show jGet (mkStResp ((s0 :: rest).map StIn.jrec) units) "SUMMARY"
          = .ok (.obj [("RESPONSE_CODE", JVal.num 1), ("RESPONSE_MESSAGE", JVal.str "OK")])
          from rfl]
      simp only [exceptBind_ok]
      rw [show jGet
          (.obj [("RESPONSE_CODE", JVal.num 1), ("RESPONSE_MESSAGE", JVal.str "OK")])
          "RESPONSE_CODE" = .ok (JVal.num 1) from rfl]
      simp only [exceptBind_ok]
      rw [if_neg (by decide)]
    refine ⟨_, by rw [hreq, hbt]; rfl, (foldDF s0.df (rest.map StIn.df)).sortIndex,
      rfl, ?_, ?_⟩
    · intro hall
      have hz : (foldDF s0.qcDF (rest.map StIn.qcDF)).cols = [] := by
        rw [foldDF_cols_nil]
        constructor
        · rw [st_qcdf_cols, hall s0 (List.mem_cons_self s0 rest)]
          rfl
        · intro x hx
          rcases List.mem_map.mp hx with ⟨st, hs, rfl⟩
          rw [st_qcdf_cols, hall st (List.mem_cons_of_mem s0 hs)]
          rfl
      simp [hz]
    · rintro ⟨st, hs, hne'⟩
      have hnz : ¬ (foldDF s0.qcDF (rest.map StIn.qcDF)).cols = [] := by
        intro hcols
        rw [foldDF_cols_nil] at hcols
        rcases List.mem_cons.mp hs with rfl | hs'
        · have := hcols.1
          rw [st_qcdf_cols] at this
          exact hne' (List.map_eq_nil_iff.mp this)
        · have := hcols.2 st.qcDF (List.mem_map.mpr ⟨st, hs', rfl⟩)
          rw [st_qcdf_cols] at this
          exact hne' (List.map_eq_nil_iff.mp this)
      refine ⟨foldDF s0.qcDF (rest.map StIn.qcDF), ?_, ?_⟩
      · simp [List.isEmpty_iff, hnz]
      · rw [foldDF_qcdf_keys]
        have hperm : List.Perm
            (((foldDF s0.df (rest.map StIn.df)).sortIndex).rows.map Prod.fst)
            ((foldDF s0.df (rest.map StIn.df)).rows.map Prod.fst) :=
          (List.perm_insertionSort keyLe _).map Prod.fst
        rw [foldDF_df_keys] at hperm
        exact hperm.symm
  · intro sd sd₂ resp summary code stations pm units hinj hsvc hqc hsum hcode hone
      hstn hprec hunits
    obtain ⟨p, ms⟩ := pm
    unfold request_data
    rw [hinj]
    simp only [exceptBind_ok]
    rw [hsum]
    simp only [exceptBind_ok]
    rw [hcode]
    simp only [exceptBind_ok]
    rw [if_neg (show ¬¬(jEqOne code = true) from fun h => h hone)]
    have hbt : buildTables sd₂ resp = .error .nameError := by
      unfold buildTables
      rw [hqc]
      rw [hstn]
      simp only [jArr, exceptBind_ok]
      rw [if_neg (show ¬ sd₂.service ≠ "Precip" from fun h => h hsvc)]
      rw [hprec]
      simp only [exceptBind_ok]
      rw [hunits]
      simp only [jObj, exceptBind_ok, exceptPure_eq_ok, if_true]
    rw [hbt]
    rfl

/-- Latest-shaped station of the C6 witness: a single scalar variable
and one QC column. -/
def lnC6 : LNIn :=
  ⟨"KSLC", JVal.null, JVal.null, JVal.null, 7,
   [("air_temp_value_1", JVal.num 20)],
   some [("air_temp_value_1", [JVal.arr [JVal.num 1]])], JVal.obj []⟩

/-- Witness for C6 at concrete inputs: a Latest request whose single
station carries a QC column (quality control requested through
qc_flag), and a Precip request with qc on whose otherwise-successful
response aborts at the unassigned QC variable. -/
theorem qc_absent_vs_table_witness :
    (∀ st ∈ [StIn.ln lnC6], st.wfFor "Latest")
    ∧ (∃ out,
        request_data
          ⟨"t", "Latest", serviceUrl "Latest", [("stid", JVal.str "KSLC")], [],
            [("qc_flag", JVal.str "on")]⟩
          (mkStResp ([StIn.ln lnC6].map StIn.jrec) [])
          = .ok (out,
              ⟨"t", "Latest", serviceUrl "Latest", [("stid", JVal.str "KSLC")], [],
                [("qc_flag", JVal.str "on")]⟩)
        ∧ ∃ df, out.data_df = TableOut.stn df
          ∧ ((∀ st ∈ [StIn.ln lnC6], st.qcv.getD [] = []) → out.qc_df = some none)
          ∧ ((∃ st ∈ [StIn.ln lnC6], st.qcv.getD [] ≠ []) →
              ∃ qdf, out.qc_df = some (some qdf)
                ∧ List.Perm (qdf.rows.map Prod.fst) (df.rows.map Prod.fst)))
    ∧ request_data
        ⟨"t", "Precip", serviceUrl "Precip", [("stid", JVal.str "KSLC")], [],
          [("qc", JVal.str "on"), ("pmode", JVal.str "intervals")]⟩
        (.obj [("SUMMARY",
                 .obj [("RESPONSE_CODE", JVal.num 1), ("RESPONSE_MESSAGE", JVal.str "OK")]),
               ("UNITS", .obj []),
               ("STATION", .arr [.obj
                 [("STID", JVal.str "KSLC"), ("LONGITUDE", JVal.num 1),
                  ("LATITUDE", JVal.num 1), ("ELEVATION", JVal.num 1),
                  ("OBSERVATIONS",
                    .obj [("precipitation", .arr [.obj
                      [("total", JVal.num 5), ("first_report", JVal.null),
                       ("last_report", JVal.null)]])])]])])
        = .error .nameError := by
  have hwfL : ∀ st ∈ [StIn.ln lnC6], st.wfFor "Latest" := by
    intro st hst
    rcases List.mem_singleton.mp hst with rfl
    refine ⟨by decide, rfl, rfl, rfl, by simp [lnC6], ?_, ?_⟩
    · intro kv hkv
      rcases List.mem_singleton.mp hkv with rfl
      rfl
    · intro kv hkv
      rcases List.mem_singleton.mp hkv with rfl
      rfl
  refine ⟨hwfL, ?_, ?_⟩
  · exact qc_absent_vs_table.1
      ⟨"t", "Latest", serviceUrl "Latest", [("stid", JVal.str "KSLC")], [],
        [("qc_flag", JVal.str "on")]⟩
      ⟨"t", "Latest", serviceUrl "Latest", [("stid", JVal.str "KSLC")], [],
        [("qc_flag", JVal.str "on")]⟩
      (StIn.ln lnC6) [] [] _ _ rfl (by decide) (by decide) hwfL rfl
  · exact qc_absent_vs_table.2
      ⟨"t", "Precip", serviceUrl "Precip", [("stid", JVal.str "KSLC")], [],
        [("qc", JVal.str "on"), ("pmode", JVal.str "intervals")]⟩
      ⟨"t", "Precip", serviceUrl "Precip", [("stid", JVal.str "KSLC")], [],
        [("qc", JVal.str "on"), ("pmode", JVal.str "intervals")]⟩
      _ _ _ _ _ _ rfl rfl (by decide) rfl rfl rfl rfl rfl rfl

/-! C10: shape of the Precip observation table under pmode.  The family
quantifies over interval records carrying the three fixed raw fields
(total and the two report times) plus an arbitrary shared tail of extra
fields (aggregation column, report type, counts, ...) whose keys avoid
the fixed column names the pipeline manipulates. -/

/-- Generic mapM evaluation: a function agreeing with a pure map. -/
theorem mapM_ok_map {α β : Type} (l : List α) (f : α → Except PyErr β)
    (g : α → β) (h : ∀ a ∈ l, f a = .ok (g a)) :
    l.mapM f = .ok (l.map g) := by
  induction l with
  | nil => rfl
  | cons a rest ih =>
    rw [List.mapM_cons, h a (List.mem_cons_self a rest)]
    simp only [exceptBind_ok]
    rw [ih (fun x hx => h x (List.mem_cons_of_mem a hx))]
    rfl

/-- Generic mapM evaluation: a function that is the identity on every
member. -/
theorem mapM_ok_id {α : Type} (l : List α) (f : α → Except PyErr α)
    (h : ∀ a ∈ l, f a = .ok a) : l.mapM f = .ok l := by
  have := mapM_ok_map l f id h
  simpa using this

theorem zip_self_map {β : Type} (cs : List String) (g : String → β) :
    cs.zip (cs.map g) = cs.map (fun c => (c, g c)) := by
  induction cs with
  | nil => rfl
  | cons c rest ih => simp [ih]

theorem dictGet?_self_map (cs : List String) (g : String → JVal) (c : String)
    (h : c ∈ cs) : dictGet? (cs.map (fun c' => (c', g c'))) c = some (g c) := by
  induction cs with
  | nil => cases h
  | cons c0 rest ih =>
    by_cases hc : c0 = c
    · subst hc; simp [dictGet?]
    · rcases List.mem_cons.mp h with rfl | hmem
      · exact absurd rfl hc
      · simp only [List.map_cons, dictGet?, if_neg hc]
        exact ih hmem

/-- Interval record of a pmode precipitation block: total, the two
report instants, and the extra fields shared across the payload. -/
structure PEntry where
  total : JVal
  t1 : Nat
  t2 : Nat
  extra : PyDict

def pEntryRec (e : PEntry) : PyDict :=
  [("total", e.total), ("first_report", natNum e.t1), ("last_report", natNum e.t2)]
    ++ e.extra

/-- Station record of a pmode Precip response. -/
structure PIn where
  stid : String
  lon : JVal
  lat : JVal
  elev : JVal
  entries : List PEntry

def PIn.jrec (p : PIn) : JVal :=
  .obj [("STID", .str p.stid), ("LONGITUDE", p.lon), ("LATITUDE", p.lat),
        ("ELEVATION", p.elev),
        ("OBSERVATIONS",
          .obj [("precipitation",
                 .arr (p.entries.map (fun e => JVal.obj (pEntryRec e))))])]

def PIn.metaOf (p : PIn) : MetaRow := ⟨p.stid, optRat p.lon, optRat p.lat, optRat p.elev⟩

/-- Raw key list shared by the interval records. -/
def pKeys (X : List String) : List String :=
  ["total", "first_report", "last_report"] ++ X

/-- Column list of the concatenated per-station frames, after the
rename of total and the station-identifier assignment. -/
def pCols (X : List String) : List String :=
  ["precipitation", "first_report", "last_report"] ++ X ++ ["stid"]

/-- Cell of the renamed per-station frame at a column label. -/
def pCell (e : PEntry) (stid : String) (c : String) : JVal :=
  if c = "precipitation" then e.total
  else if c = "first_report" then natNum e.t1
  else if c = "last_report" then natNum e.t2
  else if c = "stid" then JVal.str stid
  else (dictGet? e.extra c).getD .null

/-- Extra-field keys avoiding the fixed names the pipeline reads,
renames, assigns, or indexes by. -/
def freshX (X : List String) : Prop :=
  "total" ∉ X ∧ "first_report" ∉ X ∧ "last_report" ∉ X
    ∧ "stid" ∉ X ∧ "precipitation" ∉ X

/-- Well-formed pmode station record over the shared extra keys. -/
def PIn.wf (X : List String) (p : PIn) : Prop :=
  metaOk p.lon ∧ metaOk p.lat ∧ metaOk p.elev ∧ p.entries ≠ []
    ∧ ∀ e ∈ p.entries, dictKeys e.extra = X

theorem colUnion_nil (K : List String) : colUnion [] K = K := by
  simp [colUnion]

theorem colUnion_self (K : List String) : colUnion K K = K := by
  unfold colUnion
  rw [List.filter_eq_nil_iff.mpr ?_, List.append_nil]
  intro c hc
  simp [hc]

theorem foldl_colUnion_const (K : List String) :
    ∀ ds : List PyDict, (∀ d ∈ ds, dictKeys d = K) →
      ds.foldl (fun acc d => colUnion acc (dictKeys d)) K = K := by
  intro ds
  induction ds with
  | nil => intro _; rfl
  | cons d rest ih =>
    intro h
    rw [List.foldl_cons, h d (List.mem_cons_self d rest), colUnion_self]
    exact ih (fun x hx => h x (List.mem_cons_of_mem d hx))

theorem fromRecords_same_keys (dicts : List PyDict) (K : List String)
    (hne : dicts ≠ []) (hk : ∀ d ∈ dicts, dictKeys d = K) :
    fromRecords (dicts.map JVal.obj)
      = .ok ⟨K, dicts.map (fun d => K.map (fun c => (dictGet? d c).getD .null))⟩ := by
  unfold fromRecords
  have hmm : (dicts.map JVal.obj).mapM jObj = .ok dicts := by
    clear hne hk
    induction dicts with
    | nil => rfl
    | cons d rest ih =>
      rw [List.map_cons, List.mapM_cons]
      simp only [jObj, exceptBind_ok]
      rw [ih]
      rfl
  rw [hmm]
  simp only [exceptBind_ok]
  match dicts, hne with
  | d :: rest, _ =>
    rw [List.foldl_cons, colUnion_nil, hk d (List.mem_cons_self d rest)]
    rw [foldl_colUnion_const K rest (fun x hx => hk x (List.mem_cons_of_mem d hx))]
    rfl

theorem rename_eval (cs : List String) (rows : List (List JVal))
    (m : List (String × String)) :
    PTable.rename ⟨cs, rows⟩ m = ⟨cs.map (fun c => (tableGet? m c).getD c), rows⟩ := rfl

theorem setCol_eval_append (cs : List String) (rows : List (List JVal))
    (c : String) (v : JVal) (h : ¬ cs.contains c) :
    PTable.setCol ⟨cs, rows⟩ c v = ⟨cs ++ [c], rows.map (fun r => r ++ [v])⟩ := by
  simp only [PTable.setCol]
  rw [if_neg h]

theorem pRow_eq (X : List String) (hX : freshX X) (e : PEntry) (stid : String) :
    (pKeys X).map (fun c => (dictGet? (pEntryRec e) c).getD .null) ++ [JVal.str stid]
      = (pCols X).map (pCell e stid) := by
  obtain ⟨hT, hF, hL, hS, hP⟩ := hX
  have hleft : (pKeys X).map (fun c => (dictGet? (pEntryRec e) c).getD .null)
      = [e.total, natNum e.t1, natNum e.t2]
        ++ X.map (fun c => (dictGet? e.extra c).getD .null) := by
    unfold pKeys
    rw [List.map_append]
    congr 1
    refine List.map_congr_left ?_
    intro x hx
    have h1 : ("total" : String) ≠ x := fun h => hT (h ▸ hx)
    have h2 : ("first_report" : String) ≠ x := fun h => hF (h ▸ hx)
    have h3 : ("last_report" : String) ≠ x := fun h => hL (h ▸ hx)
    unfold pEntryRec
    rw [List.cons_append, List.cons_append, List.cons_append, List.nil_append]
    rw [dictGet?_cons_ne _ _ _ _ h1, dictGet?_cons_ne _ _ _ _ h2,
      dictGet?_cons_ne _ _ _ _ h3]
  have hXmap : X.map (pCell e stid)
      = X.map (fun c => (dictGet? e.extra c).getD .null) := by
    refine List.map_congr_left ?_
    intro x hx
    have h1 : x ≠ "precipitation" := fun h => hP (h ▸ hx)
    have h2 : x ≠ "first_report" := fun h => hF (h ▸ hx)
    have h3 : x ≠ "last_report" := fun h => hL (h ▸ hx)
    have h4 : x ≠ "stid" := fun h => hS (h ▸ hx)
    unfold pCell
    rw [if_neg h1, if_neg h2, if_neg h3, if_neg h4]
  have hright : (pCols X).map (pCell e stid)
      = ([e.total, natNum e.t1, natNum e.t2]
          ++ X.map (fun c => (dictGet? e.extra c).getD .null)) ++ [JVal.str stid] := by
    unfold pCols
    rw [List.map_append, List.map_append, hXmap]
    rfl
  rw [hleft, hright]

theorem jrec_precip_arr (p : PIn) :
    jGet p.jrec "OBSERVATIONS"
      = .ok (.obj [("precipitation",
          .arr (p.entries.map (fun e => JVal.obj (pEntryRec e))))]) := rfl

/-- Rows a pmode station contributes to the concatenated frame. -/
def pRowsOf (X : List String) (p : PIn) : List (List JVal) :=
  p.entries.map (fun e => (pCols X).map (pCell e p.stid))

/-- Interval records of a station list paired with their station
identifiers, in concatenation order. -/
def pPairs (ps : List PIn) : List (PEntry × String) :=
  (ps.map (fun p => p.entries.map (fun e => (e, p.stid)))).flatten

theorem precipStation_jrec (X : List String) (hX : freshX X) (p : PIn)
    (hwf : p.wf X) :
    precipStation true p.jrec
      = .ok (p.metaOf, ⟨pCols X, pRowsOf X p⟩) := by
  obtain ⟨hlon, hlat, helev, hne, he⟩ := hwf
  unfold precipStation
  rw [show getStid p.jrec = .ok p.stid from rfl]
  simp only [exceptBind_ok]
  rw [metaFloat_of_metaOk _ _ _ (show jGet p.jrec "LONGITUDE" = .ok p.lon from rfl) hlon]
  simp only [exceptBind_ok]
  rw [metaFloat_of_metaOk _ _ _ (show jGet p.jrec "LATITUDE" = .ok p.lat from rfl) hlat]
  simp only [exceptBind_ok]
  rw [metaFloat_of_metaOk _ _ _ (show jGet p.jrec "ELEVATION" = .ok p.elev from rfl) helev]
  simp only [exceptBind_ok]
  rw [if_pos trivial]
  rw [jrec_precip_arr]
  simp only [exceptBind_ok]
  rw [show jGet (.obj [("precipitation",
        .arr (p.entries.map (fun e => JVal.obj (pEntryRec e))))]) "precipitation"
      = .ok (.arr (p.entries.map (fun e => JVal.obj (pEntryRec e)))) from rfl]
  simp only [exceptBind_ok]
  have h1 : p.entries.map (fun e => JVal.obj (pEntryRec e))
      = (p.entries.map pEntryRec).map JVal.obj := by
    rw [List.map_map]
    rfl
  rw [h1, fromRecords_same_keys (p.entries.map pEntryRec) (pKeys X)
    (by simpa using hne) ?keys]
  case keys =>
    intro d hd
    rcases List.mem_map.mp hd with ⟨e, hee, rfl⟩
    have hx : List.map Prod.fst e.extra = X := he e hee
    simp only [pEntryRec, pKeys, dictKeys]
    rw [List.map_append, hx]
    rfl
  simp only [exceptBind_ok]
  rw [rename_eval]
  have hXid : X.map (fun c => (tableGet? [("total", "precipitation")] c).getD c)
      = X.map id := by
    refine List.map_congr_left ?_
    intro x hx
    have h2 : ("total" : String) ≠ x := fun h => hX.1 (h ▸ hx)
    simp [tableGet?, h2]
  rw [List.map_id] at hXid
  have hren : (pKeys X).map (fun c => (tableGet? [("total", "precipitation")] c).getD c)
      = ["precipitation", "first_report", "last_report"] ++ X := by
    unfold pKeys
    rw [List.map_append, hXid]
    rfl
  rw [hren]
  simp only [exceptPure_eq_ok, exceptBind_ok]
  have hnostid : ¬ (["precipitation", "first_report", "last_report"] ++ X).contains "stid" := by
    simp only [List.contains, List.elem_eq_mem, decide_eq_true_eq]
    simp [hX.2.2.2.1]
  rw [setCol_eval_append _ _ _ _ hnostid]
  simp only [exceptPure_eq_ok, Except.ok.injEq, Prod.mk.injEq]
  refine ⟨rfl, ?_⟩
  have hrows : ∀ l : List PEntry,
      List.map (fun r => r ++ [JVal.str p.stid])
        (List.map (fun d => List.map (fun c => (dictGet? d c).getD JVal.null) (pKeys X))
          (List.map pEntryRec l))
      = List.map (fun e => List.map (pCell e p.stid) (pCols X)) l := by
    intro l
    induction l with
    | nil => rfl
    | cons a t ih =>
      simp only [List.map_cons, List.cons.injEq]
      exact ⟨pRow_eq X hX a p.stid, ih⟩
  rw [hrows p.entries]
  rfl

theorem alignCells_self_map (cs : List String) (g : String → JVal) :
    alignCells cs (cs.map g) cs = cs.map g := by
  unfold alignCells
  rw [zip_self_map]
  refine List.map_congr_left ?_
  intro c hc
  rw [dictGet?_self_map cs g c hc]
  rfl

theorem map_alignCells_id (cs : List String) (rs : List (List JVal))
    (h : ∀ r ∈ rs, ∃ g, r = cs.map g) :
    rs.map (fun r => alignCells cs r cs) = rs := by
  have h2 : rs.map (fun r => alignCells cs r cs) = rs.map id := by
    refine List.map_congr_left ?_
    intro r hr
    rcases h r hr with ⟨g, rfl⟩
    exact alignCells_self_map cs g
  rw [h2, List.map_id]

theorem concat_good (cs : List String) (rs1 rs2 : List (List JVal))
    (h1 : ∀ r ∈ rs1, ∃ g, r = cs.map g) (h2 : ∀ r ∈ rs2, ∃ g, r = cs.map g) :
    PTable.concat ⟨cs, rs1⟩ ⟨cs, rs2⟩ = ⟨cs, rs1 ++ rs2⟩ := by
  simp only [PTable.concat]
  rw [colUnion_self]
  rw [map_alignCells_id cs rs1 h1, map_alignCells_id cs rs2 h2]

theorem contains_eq_decide_mem (l : List String) (c : String) :
    l.contains c = decide (c ∈ l) := by
  simp [List.contains, List.elem_eq_mem]

theorem filter_zip_self (cs : List String) (g : String → JVal) (p : String → Bool) :
    ((cs.map (fun c' => (c', g c'))).filter (fun kv => p kv.1)).map Prod.snd
      = (cs.filter p).map g := by
  rw [List.filter_map, List.map_map]
  rfl

theorem flatten_rows_eq (X : List String) (ps : List PIn) :
    (ps.map (pRowsOf X)).flatten
      = (pPairs ps).map (fun pr => (pCols X).map (pCell pr.1 pr.2)) := by
  unfold pPairs
  induction ps with
  | nil => rfl
  | cons p pt ih =>
    simp only [List.map_cons, List.flatten_cons, List.map_append, ih]
    congr 1
    unfold pRowsOf
    rw [List.map_map]
    rfl

theorem precip_fold (X : List String) (hX : freshX X) :
    ∀ ps : List PIn, (∀ p ∈ ps, p.wf X) →
      ∀ (ms : List MetaRow) (rs : List (List JVal)),
        (∀ r ∈ rs, ∃ g, r = (pCols X).map g) →
        (ps.map PIn.jrec).foldlM (fun acc rec => do
            let (m, t) ← precipStation true rec
            pure (acc.1 ++ [m], acc.2.concat t)) (ms, (⟨pCols X, rs⟩ : PTable))
          = .ok (ms ++ ps.map PIn.metaOf,
                 ⟨pCols X, rs ++ (ps.map (pRowsOf X)).flatten⟩) := by
  intro ps
  induction ps with
  | nil =>
    intro _ ms rs _
    simp
  | cons p pt ih =>
    intro hwf ms rs hrs
    rw [List.map_cons, List.foldlM_cons]
    rw [precipStation_jrec X hX p (hwf p (List.mem_cons_self p pt))]
    simp only [exceptBind_ok, exceptPure_eq_ok]
    rw [concat_good (pCols X) rs (pRowsOf X p) hrs ?good]
    case good =>
      intro r hr
      rcases List.mem_map.mp hr with ⟨e, _, rfl⟩
      exact ⟨pCell e p.stid, rfl⟩
    have hgood : ∀ r ∈ rs ++ pRowsOf X p, ∃ g, r = (pCols X).map g := by
      intro r hr
      rcases List.mem_append.mp hr with h | h
      · exact hrs r h
      · rcases List.mem_map.mp h with ⟨e, _, rfl⟩
        exact ⟨pCell e p.stid, rfl⟩
    have ih' := ih (fun q hq => hwf q (List.mem_cons_of_mem p hq)) (ms ++ [p.metaOf])
      (rs ++ pRowsOf X p) hgood
    simp only [exceptBind_ok, exceptPure_eq_ok] at ih'
    rw [ih']
    simp [List.append_assoc]

theorem dropCol_mapped {α : Type} (cs : List String) (L : List α)
    (gf : α → String → JVal) (c : String) :
    PTable.dropCol ⟨cs, L.map (fun e => cs.map (gf e))⟩ c
      = ⟨cs.filter (fun c' => c' ≠ c),
         L.map (fun e => (cs.filter (fun c' => c' ≠ c)).map (gf e))⟩ := by
  unfold PTable.dropCol
  congr 1
  rw [List.map_map]
  refine List.map_congr_left ?_
  intro e _
  show ((cs.zip (cs.map (gf e))).filter (fun kv => kv.1 ≠ c)).map Prod.snd = _
  rw [zip_self_map]
  exact filter_zip_self cs (gf e) (fun c' => decide (c' ≠ c))

theorem convertTimeCol_mapped {α : Type} (cs : List String) (L : List α)
    (gf : α → String → JVal) (c : String) (hc : cs.contains c = true)
    (hg : ∀ e ∈ L, ∃ t : Nat, gf e c = natNum t) :
    PTable.convertTimeCol ⟨cs, L.map (fun e => cs.map (gf e))⟩ c
      = .ok ⟨cs, L.map (fun e => cs.map (gf e))⟩ := by
  unfold PTable.convertTimeCol PTable.requireCol
  rw [if_pos hc]
  simp only [exceptBind_ok]
  rw [mapM_ok_id (L.map (fun e => cs.map (gf e))) _ ?cells]
  case cells =>
    intro r hr
    rcases List.mem_map.mp hr with ⟨e, he, rfl⟩
    rcases hg e he with ⟨t, hgt⟩
    show ((cs.zip (cs.map (gf e))).mapM _) = .ok (cs.map (gf e))
    rw [zip_self_map]
    have hmm := mapM_ok_map (cs.map (fun c' => (c', gf e c')))
      (fun kv =>
        if kv.1 = c then
          match kv.2 with
          | JVal.null => pure JVal.null
          | v => do
            let n ← toTime v
            pure (JVal.num (n : Rat))
        else
          pure kv.2) Prod.snd ?cell
    case cell =>
      intro kv hkv
      rcases List.mem_map.mp hkv with ⟨c', hc', rfl⟩
      by_cases hcc : c' = c
      · subst hcc
        show (if c' = c' then
                (match gf e c' with
                 | JVal.null => pure JVal.null
                 | v => do
                   let n ← toTime v
                   pure (JVal.num (n : Rat)))
              else pure (gf e c')) = Except.ok (gf e c')
        rw [if_pos rfl, hgt]
        show (do
            let n ← toTime (natNum t)
            pure (JVal.num (n : Rat)) : Except PyErr JVal) = Except.ok (natNum t)
        rw [toTime_natCast]
        rfl
      · show (if c' = c then
                (match gf e c' with
                 | JVal.null => pure JVal.null
                 | v => do
                   let n ← toTime v
                   pure (JVal.num (n : Rat)))
              else pure (gf e c')) = Except.ok (gf e c')
        rw [if_neg hcc]
        rfl
    rw [hmm, List.map_map]
    rfl
  rfl

theorem setIndex_mapped {α : Type} (cs : List String) (L : List α)
    (gf : α → String → JVal) (names : List String)
    (hn : ∀ n ∈ names, n ∈ cs) :
    PTable.setIndex ⟨cs, L.map (fun e => cs.map (gf e))⟩ names
      = .ok ⟨names,
             L.map (fun e => names.map (gf e)),
             ⟨cs.filter (fun c => ¬ names.contains c),
              L.map (fun e => (cs.filter (fun c => ¬ names.contains c)).map (gf e))⟩⟩ := by
  unfold PTable.setIndex
  have hcn : ∀ n ∈ names, (cs.contains n) = true := by
    intro n hn'
    rw [contains_eq_decide_mem]
    exact decide_eq_true (hn n hn')
  rw [mapM_ok_map names _ (fun _ => ()) ?req]
  case req =>
    intro n hn'
    show PTable.requireCol _ n = _
    unfold PTable.requireCol
    rw [if_pos (hcn n hn')]
    rfl
  simp only [exceptBind_ok]
  have hidxAll : (L.map (fun e => cs.map (gf e))).map
        (fun r => names.map (fun c => (dictGet? (cs.zip r) c).getD .null))
      = L.map (fun e => names.map (gf e)) := by
    rw [List.map_map]
    refine List.map_congr_left ?_
    intro e _
    show names.map (fun c => (dictGet? (cs.zip (cs.map (gf e))) c).getD .null) = _
    rw [zip_self_map]
    refine List.map_congr_left ?_
    intro c hc
    rw [dictGet?_self_map cs (gf e) c (hn c hc)]
    rfl
  have htblAll : (L.map (fun e => cs.map (gf e))).map
        (fun r => ((cs.zip r).filter (fun kv => ¬ names.contains kv.1)).map Prod.snd)
      = L.map (fun e => (cs.filter (fun c => ¬ names.contains c)).map (gf e)) := by
    rw [List.map_map]
    refine List.map_congr_left ?_
    intro e _
    show ((cs.zip (cs.map (gf e))).filter (fun kv => ¬ names.contains kv.1)).map Prod.snd = _
    rw [zip_self_map]
    exact filter_zip_self cs (gf e) (fun c => decide (¬ names.contains c = true))
  show Except.ok (⟨names,
      (L.map (fun e => cs.map (gf e))).map
        (fun r => names.map (fun c => (dictGet? (cs.zip r) c).getD .null)),
      ⟨cs.filter (fun c => ¬ names.contains c),
       (L.map (fun e => cs.map (gf e))).map
         (fun r => ((cs.zip r).filter (fun kv => ¬ names.contains kv.1)).map Prod.snd)⟩⟩ : PrecipDF)
    = _
  rw [hidxAll, htblAll]

/-- C10: for every successful pmode Precip request over well-shaped
station records sharing extra keys X, the produced observation table is
indexed by stid plus accum_hours (when present) or interval (when
present) plus the two parsed report instants — by stid and the report
instants alone when neither is present — carries the precipitation
column renamed from the raw total field, and carries no report_type
column even when the raw payload contained one. -/
theorem precip_pmode_table_shape (X : List String) (hX : freshX X)
    (fmt : JVal) (p0 : PIn) (rest : List PIn)
    (hwf : ∀ p ∈ p0 :: rest, p.wf X) :
    ∃ pdf : PrecipDF,
      return_precip_df ((p0 :: rest).map PIn.jrec) fmt true
        = .ok (pdf, (p0 :: rest).map PIn.metaOf)
      ∧ pdf.indexCols
          = (if "accum_hours" ∈ X then ["stid", "accum_hours", "first_report", "last_report"]
             else if "interval" ∈ X then ["stid", "interval", "first_report", "last_report"]
             else ["stid", "first_report", "last_report"])
      ∧ "precipitation" ∈ pdf.table.cols
      ∧ "report_type" ∉ pdf.table.cols
      ∧ "report_type" ∉ pdf.indexCols := by
  have hwf0 := hwf p0 (List.mem_cons_self p0 rest)
  unfold return_precip_df
  simp only [List.map_cons]
  rw [precipStation_jrec X hX p0 hwf0]
  simp only [exceptBind_ok, exceptPure_eq_ok]
  have hgood0 : ∀ r ∈ pRowsOf X p0, ∃ g, r = (pCols X).map g := by
    intro r hr
    rcases List.mem_map.mp hr with ⟨e, _, rfl⟩
    exact ⟨pCell e p0.stid, rfl⟩
  have pf := precip_fold X hX rest (fun q hq => hwf q (List.mem_cons_of_mem p0 hq))
    [p0.metaOf] (pRowsOf X p0) hgood0
  simp only [exceptBind_ok, exceptPure_eq_ok] at pf
  rw [pf]
  simp only [exceptBind_ok, exceptPure_eq_ok]
  have hrowsAll : pRowsOf X p0 ++ (rest.map (pRowsOf X)).flatten
      = (pPairs (p0 :: rest)).map (fun pr => (pCols X).map (pCell pr.1 pr.2)) := by
    have h := flatten_rows_eq X (p0 :: rest)
    rw [List.map_cons, List.flatten_cons] at h
    exact h
  rw [hrowsAll, List.singleton_append]
  by_cases hrt : "report_type" ∈ X
  · have hcond : (pCols X).contains "report_type" = true := by
      rw [contains_eq_decide_mem]
      refine decide_eq_true ?_
      simp [pCols, hrt]
    rw [if_pos hcond]
    have hdrop := dropCol_mapped (pCols X) (pPairs (p0 :: rest))
      (fun pr => pCell pr.1 pr.2) "report_type"
    rw [hdrop]
    have hfr1 : ((pCols X).filter (fun c' => c' ≠ "report_type")).contains "first_report" = true := by
      rw [contains_eq_decide_mem]
      exact decide_eq_true (List.mem_filter.mpr ⟨by simp [pCols], by decide⟩)
    have hlr1 : ((pCols X).filter (fun c' => c' ≠ "report_type")).contains "last_report" = true := by
      rw [contains_eq_decide_mem]
      exact decide_eq_true (List.mem_filter.mpr ⟨by simp [pCols], by decide⟩)
    have hcv1 := convertTimeCol_mapped ((pCols X).filter (fun c' => c' ≠ "report_type"))
      (pPairs (p0 :: rest)) (fun pr => pCell pr.1 pr.2) "first_report" hfr1
      (fun pr _ => ⟨pr.1.t1, rfl⟩)
    rw [hcv1]
    simp only [exceptBind_ok]
    have hcv2 := convertTimeCol_mapped ((pCols X).filter (fun c' => c' ≠ "report_type"))
      (pPairs (p0 :: rest)) (fun pr => pCell pr.1 pr.2) "last_report" hlr1
      (fun pr _ => ⟨pr.1.t2, rfl⟩)
    rw [hcv2]
    simp only [exceptBind_ok]
    by_cases hah : "accum_hours" ∈ X
    · have h1 : ((pCols X).filter (fun c' => c' ≠ "report_type")).contains "accum_hours" = true := by
        rw [contains_eq_decide_mem]
        exact decide_eq_true (List.mem_filter.mpr ⟨by simp [pCols, hah], by decide⟩)
      rw [if_pos h1]
      have hnames : ∀ n ∈ ["stid", "accum_hours", "first_report", "last_report"],
          n ∈ (pCols X).filter (fun c' => c' ≠ "report_type") := by
        intro n hn
        fin_cases hn
        all_goals exact List.mem_filter.mpr ⟨by simp [pCols, hah], by decide⟩
      have hsi := setIndex_mapped ((pCols X).filter (fun c' => c' ≠ "report_type"))
        (pPairs (p0 :: rest)) (fun pr => pCell pr.1 pr.2)
        ["stid", "accum_hours", "first_report", "last_report"] hnames
      rw [hsi]
      simp only [exceptBind_ok, exceptPure_eq_ok]
      refine ⟨_, rfl, ?_, ?_, ?_, ?_⟩
      · rw [if_pos hah]
      · exact List.mem_filter.mpr
          ⟨List.mem_filter.mpr ⟨by simp [pCols], by decide⟩, by decide⟩
      · intro h
        have h2 := (List.mem_filter.mp (List.mem_filter.mp h).1).2
        simp at h2
      · show "report_type" ∉ ["stid", "accum_hours", "first_report", "last_report"]
        decide
    · have h1 : ((pCols X).filter (fun c' => c' ≠ "report_type")).contains "accum_hours" = false := by
        rw [contains_eq_decide_mem]
        refine decide_eq_false ?_
        intro h
        rcases List.mem_filter.mp h with ⟨h2, _⟩
        simp [pCols] at h2
        exact hah h2
      rw [if_neg (by rw [h1]; exact Bool.false_ne_true)]
      by_cases hint : "interval" ∈ X
      · have h2i : ((pCols X).filter (fun c' => c' ≠ "report_type")).contains "interval" = true := by
          rw [contains_eq_decide_mem]
          exact decide_eq_true (List.mem_filter.mpr ⟨by simp [pCols, hint], by decide⟩)
        rw [if_pos h2i]
        have hnames : ∀ n ∈ ["stid", "interval", "first_report", "last_report"],
            n ∈ (pCols X).filter (fun c' => c' ≠ "report_type") := by
          intro n hn
          fin_cases hn
          all_goals exact List.mem_filter.mpr ⟨by simp [pCols, hint], by decide⟩
        have hsi := setIndex_mapped ((pCols X).filter (fun c' => c' ≠ "report_type"))
          (pPairs (p0 :: rest)) (fun pr => pCell pr.1 pr.2)
          ["stid", "interval", "first_report", "last_report"] hnames
        rw [hsi]
        simp only [exceptBind_ok, exceptPure_eq_ok]
        refine ⟨_, rfl, ?_, ?_, ?_, ?_⟩
        · rw [if_neg hah, if_pos hint]
        · exact List.mem_filter.mpr
            ⟨List.mem_filter.mpr ⟨by simp [pCols], by decide⟩, by decide⟩
        · intro h
          have h2 := (List.mem_filter.mp (List.mem_filter.mp h).1).2
          simp at h2
        · show "report_type" ∉ ["stid", "interval", "first_report", "last_report"]
          decide
      · have h2i : ((pCols X).filter (fun c' => c' ≠ "report_type")).contains "interval" = false := by
          rw [contains_eq_decide_mem]
          refine decide_eq_false ?_
          intro h
          rcases List.mem_filter.mp h with ⟨h2, _⟩
          simp [pCols] at h2
          exact hint h2
        rw [if_neg (by rw [h2i]; exact Bool.false_ne_true)]
        have hnames : ∀ n ∈ ["stid", "first_report", "last_report"],
            n ∈ (pCols X).filter (fun c' => c' ≠ "report_type") := by
          intro n hn
          fin_cases hn
          all_goals exact List.mem_filter.mpr ⟨by simp [pCols], by decide⟩
        have hsi := setIndex_mapped ((pCols X).filter (fun c' => c' ≠ "report_type"))
          (pPairs (p0 :: rest)) (fun pr => pCell pr.1 pr.2)
          ["stid", "first_report", "last_report"] hnames
        rw [hsi]
        simp only [exceptBind_ok, exceptPure_eq_ok]
        refine ⟨_, rfl, ?_, ?_, ?_, ?_⟩
        · rw [if_neg hah, if_neg hint]
        · exact List.mem_filter.mpr
            ⟨List.mem_filter.mpr ⟨by simp [pCols], by decide⟩, by decide⟩
        · intro h
          have h2 := (List.mem_filter.mp (List.mem_filter.mp h).1).2
          simp at h2
        · show "report_type" ∉ ["stid", "first_report", "last_report"]
          decide
  · have hcond : (pCols X).contains "report_type" = false := by
      rw [contains_eq_decide_mem]
      refine decide_eq_false ?_
      intro h
      simp [pCols] at h
      exact hrt h
    rw [if_neg (by rw [hcond]; exact Bool.false_ne_true)]
    have hfr1 : (pCols X).contains "first_report" = true := by
      rw [contains_eq_decide_mem]
      exact decide_eq_true (by simp [pCols])
    have hlr1 : (pCols X).contains "last_report" = true := by
      rw [contains_eq_decide_mem]
      exact decide_eq_true (by simp [pCols])
    have hcv1 := convertTimeCol_mapped (pCols X)
      (pPairs (p0 :: rest)) (fun pr => pCell pr.1 pr.2) "first_report" hfr1
      (fun pr _ => ⟨pr.1.t1, rfl⟩)
    rw [hcv1]
    simp only [exceptBind_ok]
    have hcv2 := convertTimeCol_mapped (pCols X)
      (pPairs (p0 :: rest)) (fun pr => pCell pr.1 pr.2) "last_report" hlr1
      (fun pr _ => ⟨pr.1.t2, rfl⟩)
    rw [hcv2]
    simp only [exceptBind_ok]
    by_cases hah : "accum_hours" ∈ X
    · have h1 : (pCols X).contains "accum_hours" = true := by
        rw [contains_eq_decide_mem]
        exact decide_eq_true (by simp [pCols, hah])
      rw [if_pos h1]
      have hnames : ∀ n ∈ ["stid", "accum_hours", "first_report", "last_report"],
          n ∈ pCols X := by
        intro n hn
        fin_cases hn
        all_goals simp [pCols, hah]
      have hsi := setIndex_mapped (pCols X)
        (pPairs (p0 :: rest)) (fun pr => pCell pr.1 pr.2)
        ["stid", "accum_hours", "first_report", "last_report"] hnames
      rw [hsi]
      simp only [exceptBind_ok, exceptPure_eq_ok]
      refine ⟨_, rfl, ?_, ?_, ?_, ?_⟩
      · rw [if_pos hah]
      · exact List.mem_filter.mpr ⟨by simp [pCols], by decide⟩
      · intro h
        have h2 := (List.mem_filter.mp h).1
        simp [pCols] at h2
        exact hrt h2
      · show "report_type" ∉ ["stid", "accum_hours", "first_report", "last_report"]
        decide
    · have h1 : (pCols X).contains "accum_hours" = false := by
        rw [contains_eq_decide_mem]
        refine decide_eq_false ?_
        intro h
        simp [pCols] at h
        exact hah h
      rw [if_neg (by rw [h1]; exact Bool.false_ne_true)]
      by_cases hint : "interval" ∈ X
      · have h2i : (pCols X).contains "interval" = true := by
          rw [contains_eq_decide_mem]
          exact decide_eq_true (by simp [pCols, hint])
        rw [if_pos h2i]
        have hnames : ∀ n ∈ ["stid", "interval", "first_report", "last_report"],
            n ∈ pCols X := by
          intro n hn
          fin_cases hn
          all_goals simp [pCols, hint]
        have hsi := setIndex_mapped (pCols X)
          (pPairs (p0 :: rest)) (fun pr => pCell pr.1 pr.2)
          ["stid", "interval", "first_report", "last_report"] hnames
        rw [hsi]
        simp only [exceptBind_ok, exceptPure_eq_ok]
        refine ⟨_, rfl, ?_, ?_, ?_, ?_⟩
        · rw [if_neg hah, if_pos hint]
        · exact List.mem_filter.mpr ⟨by simp [pCols], by decide⟩
        · intro h
          have h2 := (List.mem_filter.mp h).1
          simp [pCols] at h2
          exact hrt h2
        · show "report_type" ∉ ["stid", "interval", "first_report", "last_report"]
          decide
      · have h2i : (pCols X).contains "interval" = false := by
          rw [contains_eq_decide_mem]
          refine decide_eq_false ?_
          intro h
          simp [pCols] at h
          exact hint h
        rw [if_neg (by rw [h2i]; exact Bool.false_ne_true)]
        have hnames : ∀ n ∈ ["stid", "first_report", "last_report"],
            n ∈ pCols X := by
          intro n hn
          fin_cases hn
          all_goals simp [pCols]
        have hsi := setIndex_mapped (pCols X)
          (pPairs (p0 :: rest)) (fun pr => pCell pr.1 pr.2)
          ["stid", "first_report", "last_report"] hnames
        rw [hsi]
        simp only [exceptBind_ok, exceptPure_eq_ok]
        refine ⟨_, rfl, ?_, ?_, ?_, ?_⟩
        · rw [if_neg hah, if_neg hint]
        · exact List.mem_filter.mpr ⟨by simp [pCols], by decide⟩
        · intro h
          have h2 := (List.mem_filter.mp h).1
          simp [pCols] at h2
          exact hrt h2
        · show "report_type" ∉ ["stid", "first_report", "last_report"]
          decide

/-- Concrete pmode payload for the precipitation shape witness: one
station whose single interval record carries interval and report_type
extra fields. -/
def wpC10 : PIn :=
  ⟨"KSLC", .num 1, .num 2, .num 3,
   [⟨.num 5, 10, 20, [("interval", .num 60), ("report_type", .str "last")]⟩]⟩

theorem precip_pmode_table_shape_witness :
    freshX ["interval", "report_type"]
    ∧ (∀ p ∈ [wpC10], PIn.wf ["interval", "report_type"] p)
    ∧ ∃ pdf : PrecipDF,
        return_precip_df ([wpC10].map PIn.jrec) (.str "%Y%m%d%H%M") true
          = .ok (pdf, [wpC10].map PIn.metaOf)
        ∧ pdf.indexCols
            = (if "accum_hours" ∈ ["interval", "report_type"] then
                 ["stid", "accum_hours", "first_report", "last_report"]
               else if "interval" ∈ ["interval", "report_type"] then
                 ["stid", "interval", "first_report", "last_report"]
               else ["stid", "first_report", "last_report"])
        ∧ "precipitation" ∈ pdf.table.cols
        ∧ "report_type" ∉ pdf.table.cols
        ∧ "report_type" ∉ pdf.indexCols := by
  have hwfp : ∀ p ∈ [wpC10], PIn.wf ["interval", "report_type"] p := by
    intro p hp
    rcases List.mem_singleton.mp hp with rfl
    refine ⟨rfl, rfl, rfl, by simp [wpC10], ?_⟩
    intro e he
    rcases List.mem_singleton.mp he with rfl
    rfl
  exact ⟨by unfold freshX; decide, hwfp,
    precip_pmode_table_shape ["interval", "report_type"] (by unfold freshX; decide)
      (.str "%Y%m%d%H%M") wpC10 [] hwfp⟩

end Synoptic
